import Mathlib

/-! # broadcastMessageComp: record selection, search and pagination

A shallow embedding of the Lightning web component
`force-app/main/default/lwc/broadcastMessageComp/broadcastMessageComp.js`.

The component instance (`this`) becomes an explicit `State` record and every
handler becomes a function on `State`.  Toast notifications and Apex calls are
appended to the `effects` log of the state.  The asynchronous callbacks
(`.then`, `.catch`, `.finally`, `reader.onload`) are separate functions that
take the value the collaborator resolved with.

Conventions of the embedding:

* a JavaScript string is a list of characters (`Str`); lone surrogates are not
  represented;
* `toLowerCase` maps `A`..`Z` to `a`..`z` and leaves every other character
  alone (the Unicode case tables outside ASCII are not modelled);
* JavaScript numbers that hold page numbers and indices are integers; `NaN`
  and fractional values are not represented;
* the values of the filter inputs are the strings (for `propertyTypes` the
  array of strings) that `event.target.value` holds; a string is compared with
  a number through `StringToNumber` and with a string by UTF-16 code unit;
* `selectedRecords` (a JavaScript `Set`) is the list of its elements in
  insertion order;
* the fields `objectOptions`, `listViewOptions`, `propertyTypeOptions`,
  `inquiryTypeOptions`, `priceRangeOptions` and `inquiryObjectInfo` only feed
  the template and are left out of `State`.
-/

namespace BroadcastMessageComp

/-! ## JavaScript strings -/

/-- A JavaScript string, as the list of its characters. -/
abbrev Str := List Char

/-- `String.prototype.toLowerCase` (ASCII letters only). -/
def toLowerCase (s : Str) : Str := s.map Char.toLower

/-- White space and line terminators of ECMAScript, the characters that
`String.prototype.trim` strips. -/
def isJsWhiteSpace (c : Char) : Bool :=
  let n := c.toNat
  n == 9 || n == 10 || n == 11 || n == 12 || n == 13 || n == 32 || n == 160 ||
  n == 5760 || (8192 ≤ n && n ≤ 8202) || n == 8232 || n == 8233 || n == 8239 ||
  n == 8287 || n == 12288 || n == 65279

/-- `String.prototype.trim`. -/
def trim (s : Str) : Str :=
  ((s.dropWhile isJsWhiteSpace).reverse.dropWhile isJsWhiteSpace).reverse

/-- `s.includes(t)`: `t` occurs in `s` as a contiguous substring. -/
def includes (s t : Str) : Bool :=
  s.tails.any fun u => t.isPrefixOf u

/-- `s.split(',')`. -/
def splitComma : Str → List Str
  | [] => [[]]
  | c :: cs =>
    if c = ',' then [] :: splitComma cs
    else
      match splitComma cs with
      | [] => [[c]]
      | h :: t => (c :: h) :: t

/-- `s.split(/\r\n|\n/)`: the lines of a text, where a line break is `\r`
immediately followed by `\n`, or `\n`. -/
def splitLines : Str → List Str
  | [] => [[]]
  | [c] => if c = '\n' then [[], []] else [[c]]
  | c :: d :: cs =>
    if c = '\n' then [] :: splitLines (d :: cs)
    else if c = '\r' ∧ d = '\n' then [] :: splitLines cs
    else
      match splitLines (d :: cs) with
      | [] => [[c]]
      | h :: t => (c :: h) :: t

/-- The UTF-16 code units of a character. -/
def codeUnits (c : Char) : List Nat :=
  if c.toNat < 65536 then [c.toNat]
  else [55296 + (c.toNat - 65536) / 1024, 56320 + (c.toNat - 65536) % 1024]

/-- Lexicographic `<` on sequences of code units. -/
def codeUnitsLt : List Nat → List Nat → Bool
  | _, [] => false
  | [], _ :: _ => true
  | a :: as, b :: bs => decide (a < b) || (decide (a = b) && codeUnitsLt as bs)

/-- `a < b` for two strings: the comparison by code unit of ECMAScript. -/
def stringLt (a b : Str) : Bool :=
  codeUnitsLt (a.flatMap codeUnits) (b.flatMap codeUnits)

/-- A decimal digit. -/
def isDecimalDigit (c : Char) : Bool :=
  decide (48 ≤ c.toNat) && decide (c.toNat ≤ 57)

/-- The value of a sequence of decimal digits. -/
def digitsValue (digits : Str) : Nat :=
  digits.foldl (fun n c => 10 * n + (c.toNat - 48)) 0

/-- The exponent of an optional `ExponentPart` that ends the literal: `e` or
`E`, an optional sign and at least one digit; `none` when the text is neither
empty nor such a part. -/
def exponentOf : Str → Option Int
  | [] => some 0
  | c :: rest =>
    if c = 'e' ∨ c = 'E' then
      match rest with
      | [] => none
      | d :: ds =>
        if d = '+' then
          if !ds.isEmpty && ds.all isDecimalDigit then some (digitsValue ds) else none
        else if d = '-' then
          if !ds.isEmpty && ds.all isDecimalDigit then some (-(digitsValue ds : Int)) else none
        else if (d :: ds).all isDecimalDigit then some (digitsValue (d :: ds))
        else none
    else none

/-- A `StrUnsignedDecimalLiteral` other than `Infinity`, read as
`mantissa * 10 ^ (exponent - fractionDigits)`: digits with an optional
fraction, or a fraction that starts with the point, and an optional exponent
part; `none` when the text is not such a literal. -/
def unsignedDecimal (t : Str) : Option (Nat × Nat × Int) :=
  let intPart := t.takeWhile isDecimalDigit
  match t.dropWhile isDecimalDigit with
  | [] => if intPart.isEmpty then none else some (digitsValue intPart, 0, 0)
  | c :: rest =>
    if c = '.' then
      let fraction := rest.takeWhile isDecimalDigit
      if intPart.isEmpty && fraction.isEmpty then none
      else
        (exponentOf (rest.dropWhile isDecimalDigit)).map fun e =>
          (digitsValue (intPart ++ fraction), fraction.length, e)
    else if intPart.isEmpty then none
    else (exponentOf (c :: rest)).map fun e => (digitsValue intPart, 0, e)

/-- The Number value of `mantissa * 10 ^ (exponent - fractionDigits)` is not
zero: the decimal is above `2 ^ -1075`, half the least positive Number. -/
def roundsToNonzero (mantissa fractionDigits : Nat) (exponent : Int) : Bool :=
  decide (mantissa ≠ 0) &&
    (decide (0 ≤ exponent - fractionDigits) ||
      decide (mantissa * 2 ^ 1075 > 10 ^ (fractionDigits - exponent).toNat))

/-- `value < 0` for a string: `StringToNumber(value) < 0`.  Only a literal with
the sign `-` whose Number value is not zero is below 0; hexadecimal, octal and
binary literals carry no sign and text that is no literal is `NaN`. -/
def stringLtZero (value : Str) : Bool :=
  match trim value with
  | [] => false
  | c :: rest =>
    if c = '-' then
      if rest = "Infinity".toList then true
      else
        match unsignedDecimal rest with
        | none => false
        | some (m, f, e) => roundsToNonzero m f e
    else false

/-- `a.join(', ')`. -/
def joinCommaSpace (a : List Str) : Str :=
  List.intercalate ", ".toList a

/-! ## JavaScript arrays and sets -/

/-- `Array.prototype.slice(start, end)` with the relative (negative) indices of
ECMAScript. -/
def jsSlice {α : Type} (xs : List α) (start stop : Int) : List α :=
  let len : Int := xs.length
  let k : Int := if start < 0 then max (len + start) 0 else min start len
  let final : Int := if stop < 0 then max (len + stop) 0 else min stop len
  (xs.drop k.toNat).take (final - k).toNat

/-- Values taken by `i` in `for (let i = a; i <= b; i++)`. -/
def forRange (a b : Int) : List Int :=
  (List.range (b + 1 - a).toNat).map fun (k : Nat) => a + (k : Int)

/-- A JavaScript `Set` of strings: its elements in insertion order. -/
abbrev JsSet := List Str

/-- `set.has(x)`. -/
def JsSet.has (set : JsSet) (x : Str) : Bool := decide (x ∈ set)

/-- `set.add(x)`. -/
def JsSet.add (set : JsSet) (x : Str) : JsSet :=
  if x ∈ set then set else set ++ [x]

/-- `set.delete(x)`. -/
def JsSet.delete (set : JsSet) (x : Str) : JsSet :=
  set.filter fun y => decide (y ≠ x)

/-- `set.size`. -/
def JsSet.size (set : JsSet) : Nat := set.length

/-! ## Data model -/

/-- A row of `data`, `filteredData` and `paginatedData`, as built in the `.then`
callback of `fetchRecords`. -/
structure Row where
  index : Nat
  Id : Str
  name : Str
  phone : Str
  isSelected : Bool
  deriving DecidableEq

/-- A raw record returned by `getRecordsByListView`: its `Id` and its other
fields by API name. -/
structure RawRecord where
  Id : Str
  fields : List (Str × Str)
  deriving DecidableEq

/-- `record[key]`; `none` is `undefined`. -/
def RawRecord.get (record : RawRecord) (key : Str) : Option Str :=
  if key = "Id".toList then some record.Id else record.fields.lookup key

/-- An entry of `configMap`: the fields that hold the name and the phone of an
object type. -/
structure FieldConfig where
  nameField : Str
  phoneField : Str
  deriving DecidableEq

/-- A member of `groupMembers`; `none` is a missing `Phone_Number__c`. -/
structure Member where
  Phone_Number__c : Option Str
  deriving DecidableEq

/-- The filter criteria object.  The five fields of the initial value are
always present.  `bedroomMin` and `bedroomMax` are absent (`none`) until
`handleFilterInputChange` stores the string value of an input under that
name. -/
structure FilterCriteria where
  community : Str
  area : Str
  building : Str
  priceRange : Str
  propertyTypes : List Str
  bedroomMin : Option Str
  bedroomMax : Option Str
  deriving DecidableEq

/-- The object literal assigned to `filterCriteria` in the field initialiser,
in `handleResetFilters`, in `fetchGroupDetails` and in the first `cleardata`. -/
def emptyFilterCriteria : FilterCriteria :=
  { community := [], area := [], building := [], priceRange := [],
    propertyTypes := [], bedroomMin := none, bedroomMax := none }

/-- The object serialised by `handleSave` for `processBroadcastMessageWithObject`. -/
structure MessageData where
  objectApiName : Str
  listViewName : Str
  phoneNumbers : List Str
  description : Str
  name : Str
  isUpdate : Bool
  broadcastGroupId : Option Str
  phoneField : Str
  deriving DecidableEq

/-- What the component does to the outside: toasts and Apex calls, and an
exception that leaves a handler uncaught. -/
inductive Effect where
  | toast (title message variant : Str)
  | getObjectConfigs
  | getListViewsForObject (objectApiName : Str)
  | getRecordsByListView (objectApiName listViewId nameField phoneField : Str)
      (filterCriteria : FilterCriteria)
  | getBroadcastGroupDetails (groupId : Str)
  | processBroadcastMessageWithObject (request : MessageData)
  | createLeadsFromCsv (csvString : Str)
  | uncaughtTypeError
  deriving DecidableEq

/-- The fields of the component instance. -/
structure State where
  selectedObject : Str
  selectedListView : Str
  data : List Row
  filteredData : List Row
  paginatedData : List Row
  currentPage : Int
  pageSize : Nat
  visiblePages : Int
  isLoading : Bool
  configMap : List (Str × FieldConfig)
  searchTerm : Str
  selectedRecords : JsSet
  isCreateBroadcastModalOpen : Bool
  messageText : Str
  broadcastGroupName : Str
  isCreateBroadcastComp : Bool
  isAllBroadcastGroupPage : Bool
  isIntialRender : Bool
  groupMembers : List Member
  isFilterModalOpen : Bool
  filterCriteria : FilterCriteria
  tempFilterCriteria : FilterCriteria
  appliedFilterCount : Nat
  broadcastGroupId : Option Str
  broadcastHeading : Str
  createBtnLabel : Str
  effects : List Effect
  deriving DecidableEq

/-- The field initialisers of the class; `broadcastGroupId` is the public
property set by the owner. -/
def initialState (broadcastGroupId : Option Str) : State :=
  { selectedObject := [], selectedListView := [], data := [], filteredData := [],
    paginatedData := [], currentPage := 1, pageSize := 10, visiblePages := 5,
    isLoading := false, configMap := [], searchTerm := [], selectedRecords := [],
    isCreateBroadcastModalOpen := false, messageText := [], broadcastGroupName := [],
    isCreateBroadcastComp := true, isAllBroadcastGroupPage := false,
    isIntialRender := true, groupMembers := [], isFilterModalOpen := false,
    filterCriteria := emptyFilterCriteria, tempFilterCriteria := emptyFilterCriteria,
    appliedFilterCount := 0, broadcastGroupId := broadcastGroupId,
    broadcastHeading := "New Broadcast Group".toList,
    createBtnLabel := "Create Broadcast Group".toList, effects := [] }

/-- `this.showToast(title, message, variant)`. -/
def showToast (s : State) (title message variant : Str) : State :=
  { s with effects := s.effects ++ [Effect.toast title message variant] }

/-- Truthiness of an optional string: `undefined`, `null` and `''` are falsy. -/
def truthy : Option Str → Bool
  | none => false
  | some v => !v.isEmpty

/-! ## Getters -/

/-- `get totalItems()`. -/
def totalItems (s : State) : Nat := s.filteredData.length

/-- `get totalPages()`: `Math.ceil(totalItems / pageSize)`, for `pageSize > 0`. -/
def totalPages (s : State) : Int := ((totalItems s + s.pageSize - 1) / s.pageSize : Nat)

/-- `get isAllSelected()`. -/
def isAllSelected (s : State) : Bool :=
  decide (s.paginatedData.length > 0) &&
    s.paginatedData.all fun record => s.selectedRecords.has record.Id

/-- `get isIndeterminate()`. -/
def isIndeterminate (s : State) : Bool :=
  (s.paginatedData.any fun record => s.selectedRecords.has record.Id) && !isAllSelected s

/-- `get showNoRecordsMessage()`. -/
def showNoRecordsMessage (s : State) : Bool := decide (s.paginatedData.length = 0)

/-- `get isFirstPage()`. -/
def isFirstPage (s : State) : Bool := decide (s.currentPage = 1)

/-- `get isLastPage()`. -/
def isLastPage (s : State) : Bool := decide (s.currentPage = totalPages s)

/-- An entry of the list returned by `get pageNumbers()`; `none` is an absent
property. -/
structure PageEntry where
  number : Option Int
  isEllipsis : Bool
  className : Option String
  deriving DecidableEq

/-- The numbered entry pushed for page `i`. -/
def pageButton (i currentPage : Int) : PageEntry :=
  { number := some i, isEllipsis := false,
    className := some ("pagination-button " ++ (if i = currentPage then "active" else "")) }

/-- The entry `{ isEllipsis: true }`. -/
def ellipsisEntry : PageEntry :=
  { number := none, isEllipsis := true, className := none }

/-- Body of `get pageNumbers()` on the three values it reads. -/
def pageNumbersOf (totalPages currentPage visiblePages : Int) : List PageEntry :=
  let pages : List PageEntry := []
  if totalPages ≤ visiblePages then
    (forRange 1 totalPages).foldl (fun pages i => pages ++ [pageButton i currentPage]) pages
  else
    let pages := pages ++ [pageButton 1 currentPage]
    let pages := if currentPage > 3 then pages ++ [ellipsisEntry] else pages
    let start := max 2 (currentPage - 1)
    let stop := min (currentPage + 1) (totalPages - 1)
    let pages := (forRange start stop).foldl (fun pages i => pages ++ [pageButton i currentPage]) pages
    let pages := if currentPage < totalPages - 2 then pages ++ [ellipsisEntry] else pages
    pages ++ [pageButton totalPages currentPage]

/-- `get pageNumbers()`. -/
def pageNumbers (s : State) : List PageEntry :=
  pageNumbersOf (totalPages s) s.currentPage s.visiblePages

/-! ## Pagination -/

/-- The callback of `map` in `updateShownData`: a copy of the row whose
`isSelected` is the membership of its `Id` in the set. -/
def markSelected (selectedRecords : JsSet) (record : Row) : Row :=
  { record with isSelected := selectedRecords.has record.Id }

/-- `updateShownData()`. -/
def updateShownData (s : State) : State :=
  let startIndex : Int := (s.currentPage - 1) * s.pageSize
  let endIndex : Int := min (startIndex + s.pageSize) (totalItems s)
  { s with
    paginatedData :=
      (jsSlice s.filteredData startIndex endIndex).map (markSelected s.selectedRecords) }

/-- `handlePrevious()`. -/
def handlePrevious (s : State) : State :=
  if s.currentPage > 1 then
    updateShownData { s with currentPage := s.currentPage - 1 }
  else s

/-- `handleNext()`. -/
def handleNext (s : State) : State :=
  if s.currentPage < totalPages s then
    updateShownData { s with currentPage := s.currentPage + 1 }
  else s

/-- `handlePageChange(event)`; `selectedPage` is the integer parsed from the
`data-id` attribute of the clicked button. -/
def handlePageChange (s : State) (selectedPage : Int) : State :=
  if selectedPage ≠ s.currentPage then
    updateShownData { s with currentPage := selectedPage }
  else s

/-! ## Search -/

/-- `handleSearch(event)`; `value` is `event.target.value`. -/
def handleSearch (s : State) (value : Str) : State :=
  let searchTerm := toLowerCase value
  let term := trim searchTerm
  let filteredData := s.data.filter fun item =>
    let name := toLowerCase item.name
    let phone := toLowerCase item.phone
    term.isEmpty || includes name term || includes phone term
  updateShownData
    { s with searchTerm := searchTerm, filteredData := filteredData, currentPage := 1 }

/-! ## Loading records -/

/-- Runs a handler body to the end of the event: an exception that nothing
catches stops the handler and keeps the assignments made so far. -/
def settle : Except State State → State
  | .ok s => s
  | .error s => { s with effects := s.effects ++ [Effect.uncaughtTypeError] }

/-- `loadListViews()`, up to the Apex call. -/
def loadListViews (s : State) : State :=
  { s with isLoading := true,
           effects := s.effects ++ [Effect.getListViewsForObject s.selectedObject] }

/-- The `.then` and `.finally` callbacks of `loadListViews` (`listViewOptions`
is not part of the state). -/
def loadListViewsResolved (s : State) : State :=
  { s with isLoading := false }

/-- The `.catch` and `.finally` callbacks of `loadListViews`. -/
def loadListViewsRejected (s : State) : State :=
  { showToast s "Error".toList "Error loading list views".toList "error".toList with
    isLoading := false }

/-- `handleObjectChange(event)`; `value` is `event.detail.value`. -/
def handleObjectChange (s : State) (value : Str) : State :=
  loadListViews
    { s with selectedObject := value, selectedListView := [], data := [],
             filteredData := [], paginatedData := [], currentPage := 1,
             selectedRecords := [] }

/-- `fetchRecords()`, up to the Apex call.  `.error` is the `TypeError` of
`fields.nameField` when `configMap` has no entry for the selected object. -/
def fetchRecords (s : State) : Except State State :=
  if s.selectedObject.isEmpty || s.selectedListView.isEmpty then .ok s
  else
    let s := { s with isLoading := true }
    match s.configMap.lookup s.selectedObject with
    | none => .error s
    | some fields =>
      .ok { s with effects := s.effects ++
        [Effect.getRecordsByListView s.selectedObject s.selectedListView
          fields.nameField fields.phoneField s.filterCriteria] }

/-- The row built from a raw record at position `index` (0-based). -/
def toRow (fields : FieldConfig) (index : Nat) (record : RawRecord) : Row :=
  { index := index + 1,
    Id := record.Id,
    name := (record.get fields.nameField).getD [],
    phone := (record.get fields.phoneField).getD [],
    isSelected := false }

/-- The rows assigned to `data` by the `.then` callback of `fetchRecords`:
`data.map((record, index) => ...)`. -/
def fetchedRows (fields : FieldConfig) (data : List RawRecord) : List Row :=
  data.enum.map fun p => toRow fields p.1 p.2

/-- The condition of the reconciliation branch in the `.then` callback of
`fetchRecords`: `isIntialRender && broadcastGroupId && groupMembers.length > 0`. -/
def reconciliationDue (s : State) : Bool :=
  s.isIntialRender && truthy s.broadcastGroupId && decide (s.groupMembers.length > 0)

/-- The `.then` callback of `fetchRecords`; `fields` is the configuration
captured when the call was made and `data` the records it resolved with. -/
def fetchRecordsThen (s : State) (fields : FieldConfig) (data : List RawRecord) : State :=
  let s := { s with data := fetchedRows fields data }
  let s := { s with filteredData := s.data, currentPage := 1 }
  let s :=
    if reconciliationDue s then
      let memberPhoneNumbers : List (Option Str) :=
        s.groupMembers.map fun member => member.Phone_Number__c
      let marked := s.data.map fun (record : Row) =>
        if some record.phone ∈ memberPhoneNumbers then { record with isSelected := true }
        else record
      let selected := s.data.foldl
        (fun (set : JsSet) (record : Row) =>
          if some record.phone ∈ memberPhoneNumbers then set.add record.Id else set)
        s.selectedRecords
      { s with isIntialRender := false, data := marked, selectedRecords := selected,
               filteredData := marked }
    else
      { s with selectedRecords := [] }
  updateShownData s

/-- A successful fetch: the `.then` and `.finally` callbacks of `fetchRecords`. -/
def fetchRecordsResolved (s : State) (fields : FieldConfig) (data : List RawRecord) : State :=
  { fetchRecordsThen s fields data with isLoading := false }

/-- A failed fetch: the `.catch` and `.finally` callbacks of `fetchRecords`;
`message` is the text of `error.body?.message`. -/
def fetchRecordsRejected (s : State) (message : Str) : State :=
  { showToast s "Error".toList ("Error loading records: ".toList ++ message) "error".toList with
    isLoading := false }

/-- `handleListViewChange(event)`. -/
def handleListViewChange (s : State) (value : Str) : State :=
  settle (fetchRecords { s with selectedListView := value })

/-! ## Selection -/

/-- Applies `f` to the first element that satisfies `p`: the assignment to the
object returned by `Array.prototype.find`. -/
def updateFirst {α : Type} (p : α → Bool) (f : α → α) : List α → List α
  | [] => []
  | x :: xs => if p x then f x :: xs else x :: updateFirst p f xs

/-- `handleRecordSelection(event)`; `recordId` is `event.target.dataset.recordId`
and `checked` is `event.target.checked`. -/
def handleRecordSelection (s : State) (recordId : Str) (checked : Bool) : State :=
  match s.paginatedData.find? fun row => decide (row.Id = recordId) with
  | none => s
  | some _ =>
    { s with
      paginatedData := updateFirst (fun row => decide (row.Id = recordId))
        (fun record => { record with isSelected := checked }) s.paginatedData,
      selectedRecords :=
        if checked then s.selectedRecords.add recordId else s.selectedRecords.delete recordId }

/-- `handleSelectAll(event)`; `isChecked` is `event.target.checked`. -/
def handleSelectAll (s : State) (isChecked : Bool) : State :=
  { s with
    paginatedData := s.paginatedData.map fun record => { record with isSelected := isChecked },
    selectedRecords := s.paginatedData.foldl
      (fun set record => if isChecked then set.add record.Id else set.delete record.Id)
      s.selectedRecords }

/-- The callback of `some` in `handleModalOpen`:
`!record || !record.phone || record.phone.trim() === ''`, where `record` is the
first row of `data` with the given Id. -/
def phoneMissing (s : State) (recordId : Str) : Bool :=
  match s.data.find? fun r => decide (r.Id = recordId) with
  | none => true
  | some record => record.phone.isEmpty || (trim record.phone).isEmpty

/-- `handleModalOpen()`. -/
def handleModalOpen (s : State) : State :=
  if s.selectedRecords.size = 0 then
    showToast s "Error".toList "Please select at least one record".toList "error".toList
  else if s.selectedRecords.any (phoneMissing s) then
    showToast s "Error".toList
      "One or more selected records have invalid or missing phone numbers".toList "error".toList
  else
    { s with isCreateBroadcastModalOpen := true }

/-- `closePopUp()`. -/
def closePopUp (s : State) : State :=
  { s with isCreateBroadcastModalOpen := false, broadcastGroupName := [], messageText := [] }

/-- The second definition of `cleardata()` in the class body, the one that is
in effect: a later method definition replaces an earlier one of the same name. -/
def cleardata (s : State) : State :=
  { s with selectedObject := [], selectedListView := [], data := [], filteredData := [],
           paginatedData := [], currentPage := 1, selectedRecords := [],
           broadcastGroupName := [], messageText := [], isCreateBroadcastModalOpen := false,
           broadcastGroupId := none, groupMembers := [], isIntialRender := true }

/-- The first definition of `cleardata()` in the class body, which the second
one replaces. -/
def cleardataFirst (s : State) : State :=
  { s with selectedObject := [], selectedListView := [], data := [], filteredData := [],
           paginatedData := [], currentPage := 1, selectedRecords := [],
           broadcastGroupName := [], messageText := [], isCreateBroadcastModalOpen := false,
           broadcastGroupId := none, groupMembers := [], isIntialRender := true,
           filterCriteria := emptyFilterCriteria, appliedFilterCount := 0 }

/-- `handleBack()`. -/
def handleBack (s : State) : State :=
  { cleardata s with isCreateBroadcastComp := false, isAllBroadcastGroupPage := true }

/-! ## Filter criteria -/

/-- `handleFilterModalOpen()`. -/
def handleFilterModalOpen (s : State) : State :=
  { s with tempFilterCriteria := s.filterCriteria, isFilterModalOpen := true }

/-- `handleFilterModalClose()`. -/
def handleFilterModalClose (s : State) : State :=
  { s with isFilterModalOpen := false }

/-- The `name` and `value` of the input that fired `handleFilterInputChange`. -/
inductive FilterInput where
  | community (value : Str)
  | area (value : Str)
  | building (value : Str)
  | priceRange (value : Str)
  | propertyTypes (value : List Str)
  | bedroomMin (value : Str)
  | bedroomMax (value : Str)
  deriving DecidableEq

/-- `handleFilterInputChange(event)`. -/
def handleFilterInputChange (s : State) (input : FilterInput) : State :=
  let c := s.tempFilterCriteria
  { s with tempFilterCriteria :=
      match input with
      | .community v => { c with community := v }
      | .area v => { c with area := v }
      | .building v => { c with building := v }
      | .priceRange v => { c with priceRange := v }
      | .propertyTypes v => { c with propertyTypes := v }
      | .bedroomMin v => { c with bedroomMin := some v }
      | .bedroomMax v => { c with bedroomMax := some v } }

/-- The filter callback of `updateAppliedFilterCount` on a string value:
`value && value.trim() !== ''`. -/
def countsString (value : Str) : Bool :=
  !value.isEmpty && !(trim value).isEmpty

/-- The filter callback of `updateAppliedFilterCount` on an array value:
`value && value.length > 0`. -/
def countsArray (value : List Str) : Bool :=
  decide (value.length > 0)

/-- A value of the filter criteria object: a string or an array of strings. -/
inductive FilterValue where
  | string (value : Str)
  | array (value : List Str)
  deriving DecidableEq

/-- `Object.values(criteria)`: the values of the keys that are present. -/
def objectValues (c : FilterCriteria) : List FilterValue :=
  [FilterValue.string c.community, FilterValue.string c.area, FilterValue.string c.building,
    FilterValue.string c.priceRange, FilterValue.array c.propertyTypes]
    ++ (c.bedroomMin.toList.map FilterValue.string)
    ++ (c.bedroomMax.toList.map FilterValue.string)

/-- The filter callback of `updateAppliedFilterCount`:
`value && (Array.isArray(value) ? value.length > 0 : value.trim() !== '')`. -/
def countsValue : FilterValue → Bool
  | .string value => countsString value
  | .array value => countsArray value

/-- `updateAppliedFilterCount()`. -/
def updateAppliedFilterCount (s : State) : State :=
  { s with appliedFilterCount := ((objectValues s.filterCriteria).filter countsValue).length }

/-- `handleResetFilters()` (the inputs of the template that it clears are not
part of the state). -/
def handleResetFilters (s : State) : State :=
  settle (fetchRecords
    { s with filterCriteria := emptyFilterCriteria, tempFilterCriteria := emptyFilterCriteria,
             appliedFilterCount := 0 })

/-- `value < 0` on a criteria value: a comparison of `undefined` is false. -/
def jsLtZero : Option Str → Bool
  | none => false
  | some value => stringLtZero value

/-- `a > b` on two criteria values: two strings are compared by code unit, a
comparison with `undefined` is false. -/
def jsGt : Option Str → Option Str → Bool
  | some a, some b => stringLt b a
  | _, _ => false

/-- `validateFilterCriteria(criteria)`: the state with the warning, if any, and
the value returned. -/
def validateFilterCriteria (s : State) (criteria : FilterCriteria) : State × Bool :=
  if jsLtZero criteria.bedroomMax || jsLtZero criteria.bedroomMin then
    (showToast s "Warning!".toList "Bedroom count cannot be less than 0.".toList
      "warning".toList, false)
  else if jsGt criteria.bedroomMin criteria.bedroomMax then
    (showToast s "Warning!".toList
      "Minimum bedroom count cannot be greater than maximum.".toList "warning".toList, false)
  else (s, true)

/-- `handleApplyFilters()`. -/
def handleApplyFilters (s : State) : State :=
  match validateFilterCriteria s s.tempFilterCriteria with
  | (s, false) => s
  | (s, true) =>
    let s := { s with filterCriteria := s.tempFilterCriteria, isFilterModalOpen := false }
    settle (fetchRecords (updateAppliedFilterCount s))

/-! ## Saving the group -/

/-- `handleInputChange(event)`. -/
def handleInputChange (s : State) (name value : Str) : State :=
  if name = "name".toList then { s with broadcastGroupName := value }
  else if name = "message".toList then { s with messageText := value }
  else s

/-- `handleSave()`, up to the Apex call. -/
def handleSave (s : State) : State :=
  if (trim s.messageText).isEmpty || (trim s.broadcastGroupName).isEmpty then
    showToast s "Error".toList "Please fill in all required fields".toList "error".toList
  else
    let phoneNumbers := (s.selectedRecords.filterMap fun recordId =>
      (s.data.find? fun r => decide (r.Id = recordId)).map fun record => record.phone).filter
        fun phone => !phone.isEmpty
    let phoneField := ((s.configMap.lookup s.selectedObject).map fun f => f.phoneField).getD []
    let messageData : MessageData :=
      { objectApiName := s.selectedObject, listViewName := s.selectedListView,
        phoneNumbers := phoneNumbers, description := s.messageText,
        name := s.broadcastGroupName, isUpdate := s.broadcastGroupId.isSome,
        broadcastGroupId := s.broadcastGroupId, phoneField := phoneField }
    { s with isLoading := true,
             effects := s.effects ++ [Effect.processBroadcastMessageWithObject messageData] }

/-- A successful send: the `.then` and `.finally` callbacks of `handleSave`. -/
def handleSaveResolved (s : State) : State :=
  let s := showToast s "Success".toList "Broadcast group created successfully".toList
    "success".toList
  let s := closePopUp s
  let s := updateShownData { s with selectedRecords := [] }
  { s with isLoading := false, isCreateBroadcastComp := false, isAllBroadcastGroupPage := true }

/-- A failed send: the `.catch` and `.finally` callbacks of `handleSave`;
`message` is `error.body?.message`. -/
def handleSaveRejected (s : State) (message : Option Str) : State :=
  let s := showToast s "Error".toList
    (if truthy message then message.getD [] else "Failed to process broadcast".toList)
    "error".toList
  { s with isLoading := false, isCreateBroadcastComp := false, isAllBroadcastGroupPage := true }

/-! ## CSV upload -/

/-- `requiredFields` of `handleCsvFileChange`. -/
def requiredFields : List Str := ["lastname".toList, "email".toList, "phone".toList]

/-- `headers` of `handleCsvFileChange`. -/
def csvHeaders (csvText : Str) : List Str :=
  let lines := splitLines csvText
  (splitComma (toLowerCase (lines.headD []))).map trim

/-- `missingFields` of `handleCsvFileChange`. -/
def missingFields (csvText : Str) : List Str :=
  requiredFields.filter fun field => !(csvHeaders csvText).contains field

/-- `processCsvString(csvText)`, up to the Apex call. -/
def processCsvString (s : State) (csvText : Str) : State :=
  { s with effects := s.effects ++ [Effect.createLeadsFromCsv csvText] }

/-- The `reader.onload` callback of `handleCsvFileChange`; `csvText` is
`reader.result`. -/
def readerOnload (s : State) (csvText : Str) : State :=
  if (missingFields csvText).length > 0 then
    showToast s "Warning!".toList
      ("Missing required fields: ".toList ++ joinCommaSpace (missingFields csvText))
      "warning".toList
  else processCsvString s csvText

/-- `handleCsvFileChange(event)` together with the load of the file; `file` is
the text of `event.target.files[0]`, `none` when no file was chosen. -/
def handleCsvFileChange (s : State) (file : Option Str) : State :=
  match file with
  | none => s
  | some csvText => readerOnload s csvText

/-- The message of the `TypeError` raised by `fields.nameField` (its text is
defined by the engine). -/
def typeErrorMessage : Str := "TypeError".toList

/-- The `.then` callback of `processCsvString`, and its `.catch` when
`fetchRecords` throws; `result` is the number of leads created. -/
def processCsvStringResolved (s : State) (result : Nat) : State :=
  match fetchRecords s with
  | .ok s =>
    showToast s "Success!".toList
      ((Nat.repr result).toList ++ " leads created successfully.".toList) "success".toList
  | .error s => showToast s "Error!".toList typeErrorMessage "error".toList

/-- The `.catch` callback of `processCsvString`; `errorMessage` is
`error.body?.message || error.message || ...`. -/
def processCsvStringRejected (s : State) (errorMessage : Str) : State :=
  showToast s "Error!".toList errorMessage "error".toList

/-! ## Start-up -/

/-- `loadConfigs()`, up to the Apex call. -/
def loadConfigs (s : State) : State :=
  { s with isLoading := true, effects := s.effects ++ [Effect.getObjectConfigs] }

/-- The `.then` and `.finally` callbacks of `loadConfigs` (`objectOptions` is
not part of the state). -/
def loadConfigsResolved (s : State) (configMap : List (Str × FieldConfig)) : State :=
  { s with configMap := configMap, isLoading := false }

/-- The `.catch` and `.finally` callbacks of `loadConfigs`. -/
def loadConfigsRejected (s : State) : State :=
  { showToast s "Error".toList "Error loading configs".toList "error".toList with
    isLoading := false }

/-- The value `getBroadcastGroupDetails` resolves with; `none` is an absent
property of `group`. -/
structure GroupDetails where
  Object_Name__c : Option Str
  List_View__c : Option Str
  Name : Str
  Description__c : Str
  members : List Member
  deriving DecidableEq

/-- `fetchGroupDetails()`, up to the Apex call. -/
def fetchGroupDetails (s : State) : State :=
  match s.broadcastGroupId with
  | none => s
  | some groupId =>
    if groupId.isEmpty then s
    else
      { s with isLoading := true,
               effects := s.effects ++ [Effect.getBroadcastGroupDetails groupId] }

/-- The `.then` callback of `fetchGroupDetails`, its `.catch` when
`fetchRecords` throws, and its `.finally`. -/
def fetchGroupDetailsResolved (s : State) (result : GroupDetails) : State :=
  let s := { s with broadcastHeading := "Edit Broadcast Group".toList,
                    createBtnLabel := "Update Broadcast Group".toList,
                    selectedObject := if truthy result.Object_Name__c
                      then result.Object_Name__c.getD [] else [] }
  let s := loadListViews s
  let s := { s with selectedListView := if truthy result.List_View__c
                      then result.List_View__c.getD [] else [],
                    broadcastGroupName := result.Name,
                    messageText := result.Description__c,
                    groupMembers := result.members,
                    filterCriteria := emptyFilterCriteria,
                    appliedFilterCount := 0 }
  match fetchRecords s with
  | .ok s => { s with isLoading := false }
  | .error s =>
    { showToast s "Error".toList "Error fetching group details".toList "error".toList with
      isLoading := false }

/-- The `.catch` and `.finally` callbacks of `fetchGroupDetails`. -/
def fetchGroupDetailsRejected (s : State) : State :=
  { showToast s "Error".toList "Error fetching group details".toList "error".toList with
    isLoading := false }

/-- `connectedCallback()`. -/
def connectedCallback (s : State) : State :=
  fetchGroupDetails (loadConfigs s)

/-! ## Events -/

/-- What can happen to a connected component: an action of the user, or a
collaborator settling a call. -/
inductive Event where
  | search (value : Str)
  | previous
  | next
  | pageChange (selectedPage : Int)
  | objectChange (value : Str)
  | listViewChange (value : Str)
  | recordSelection (recordId : Str) (checked : Bool)
  | selectAll (isChecked : Bool)
  | modalOpen
  | closePopUp
  | inputChange (name value : Str)
  | save
  | saveResolved
  | saveRejected (message : Option Str)
  | back
  | filterModalOpen
  | filterModalClose
  | filterInputChange (input : FilterInput)
  | resetFilters
  | applyFilters
  | fetchResolved (fields : FieldConfig) (data : List RawRecord)
  | fetchRejected (message : Str)
  | listViewsResolved
  | listViewsRejected
  | configsResolved (configMap : List (Str × FieldConfig))
  | configsRejected
  | groupDetailsResolved (result : GroupDetails)
  | groupDetailsRejected
  | connected
  | csvFileChange (file : Option Str)
  | csvResolved (result : Nat)
  | csvRejected (errorMessage : Str)

/-- The handler that an event runs. -/
def step (s : State) : Event → State
  | .search value => handleSearch s value
  | .previous => handlePrevious s
  | .next => handleNext s
  | .pageChange selectedPage => handlePageChange s selectedPage
  | .objectChange value => handleObjectChange s value
  | .listViewChange value => handleListViewChange s value
  | .recordSelection recordId checked => handleRecordSelection s recordId checked
  | .selectAll isChecked => handleSelectAll s isChecked
  | .modalOpen => handleModalOpen s
  | .closePopUp => closePopUp s
  | .inputChange name value => handleInputChange s name value
  | .save => handleSave s
  | .saveResolved => handleSaveResolved s
  | .saveRejected message => handleSaveRejected s message
  | .back => handleBack s
  | .filterModalOpen => handleFilterModalOpen s
  | .filterModalClose => handleFilterModalClose s
  | .filterInputChange input => handleFilterInputChange s input
  | .resetFilters => handleResetFilters s
  | .applyFilters => handleApplyFilters s
  | .fetchResolved fields data => fetchRecordsResolved s fields data
  | .fetchRejected message => fetchRecordsRejected s message
  | .listViewsResolved => loadListViewsResolved s
  | .listViewsRejected => loadListViewsRejected s
  | .configsResolved configMap => loadConfigsResolved s configMap
  | .configsRejected => loadConfigsRejected s
  | .groupDetailsResolved result => fetchGroupDetailsResolved s result
  | .groupDetailsRejected => fetchGroupDetailsRejected s
  | .connected => connectedCallback s
  | .csvFileChange file => handleCsvFileChange s file
  | .csvResolved result => processCsvStringResolved s result
  | .csvRejected errorMessage => processCsvStringRejected s errorMessage

/-- The state after a sequence of events. -/
def run (s : State) (events : List Event) : State :=
  events.foldl step s

/-! ## The page index in the words of the specification -/

/-- An entry of the page index as the specification describes it: a page
number with its active flag, or an ellipsis marker. -/
inductive IndexItem where
  | page (number : Int) (active : Bool)
  | ellipsis
  deriving DecidableEq

/-- What an entry of `pageNumbers` shows: an ellipsis, or a number that is
active when its `className` carries `active`. -/
def PageEntry.view (e : PageEntry) : IndexItem :=
  if e.isEllipsis then IndexItem.ellipsis
  else IndexItem.page (e.number.getD 0) (decide (e.className = some "pagination-button active"))

/-- The windowed page index of section 4.2 of the specification. -/
def pageIndexSpec (totalPages currentPage visiblePages : Int) : List IndexItem :=
  if totalPages ≤ visiblePages then
    (forRange 1 totalPages).map fun i => IndexItem.page i (decide (i = currentPage))
  else
    [IndexItem.page 1 (decide (1 = currentPage))]
      ++ (if currentPage > 3 then [IndexItem.ellipsis] else [])
      ++ ((forRange (max 2 (currentPage - 1)) (min (currentPage + 1) (totalPages - 1))).map
            fun i => IndexItem.page i (decide (i = currentPage)))
      ++ (if currentPage < totalPages - 2 then [IndexItem.ellipsis] else [])
      ++ [IndexItem.page totalPages (decide (totalPages = currentPage))]

/-! ## Sample states -/

/-- Five rows as a fetch builds them. -/
def sampleRows : List Row :=
  [ { index := 1, Id := "r1".toList, name := "Alice".toList, phone := "111".toList,
      isSelected := false },
    { index := 2, Id := "r2".toList, name := "Bob".toList, phone := "222".toList,
      isSelected := false },
    { index := 3, Id := "r3".toList, name := "Carol".toList, phone := "333".toList,
      isSelected := false },
    { index := 4, Id := "r4".toList, name := "Dave".toList, phone := "444".toList,
      isSelected := false },
    { index := 5, Id := "r5".toList, name := "Eve".toList, phone := "555".toList,
      isSelected := false } ]

/-- A component that shows `sampleRows` two to a page and stands on page 2,
with `r3` selected. -/
def sampleState : State :=
  { initialState none with
    selectedObject := "Lead".toList, selectedListView := "lv1".toList,
    data := sampleRows, filteredData := sampleRows, pageSize := 2, currentPage := 2,
    selectedRecords := ["r3".toList] }

/-- A component with the initial page size and window whose filtered view has
111 rows, on page 6 of 12. -/
def sampleState12 : State :=
  { initialState none with
    filteredData := List.replicate 111
      { index := 1, Id := "r".toList, name := [], phone := [], isSelected := false },
    currentPage := 6 }

/-! ## Predicates of the claims -/

/-- The events that page through or search the loaded records: `handlePrevious`,
`handleNext`, `handlePageChange` and `handleSearch`. -/
def Event.isNavigation : Event → Bool
  | .search _ => true
  | .previous => true
  | .next => true
  | .pageChange _ => true
  | _ => false

/-- The visible page mirrors the selection set: every visible row has
`isSelected` equal to the membership of its `Id` in `selectedRecords`. -/
def Mirror (s : State) : Prop :=
  ∀ row ∈ s.paginatedData, row.isSelected = s.selectedRecords.has row.Id

/-- The field configuration of the sample object type. -/
def sampleFields : FieldConfig :=
  { nameField := "Name".toList, phoneField := "Phone".toList }

/-- Five raw records as `getRecordsByListView` returns them; the last has no
phone. -/
def sampleRecords : List RawRecord :=
  [ { Id := "r1".toList, fields := [("Name".toList, "Alice".toList), ("Phone".toList, "111".toList)] },
    { Id := "r2".toList, fields := [("Name".toList, "Bob".toList), ("Phone".toList, "222".toList)] },
    { Id := "r3".toList, fields := [("Name".toList, "Carol".toList), ("Phone".toList, "333".toList)] },
    { Id := "r4".toList, fields := [("Name".toList, "Dave".toList), ("Phone".toList, "444".toList)] },
    { Id := "r5".toList, fields := [("Name".toList, "Eve".toList)] } ]

/-- A component that edits the group `g1`, whose two members have the phones of
`r2` and `r4`, before its first fetch has resolved. -/
def sampleEditState : State :=
  { initialState (some "g1".toList) with
    selectedObject := "Lead".toList, selectedListView := "lv1".toList,
    configMap := [("Lead".toList, sampleFields)],
    groupMembers := [{ Phone_Number__c := some "222".toList },
                     { Phone_Number__c := some "444".toList }] }

/-- The one-shot flag cannot fire: it is consumed, or no group is being
edited. -/
def FlagSpent (s : State) : Prop :=
  s.isIntialRender = false ∨ truthy s.broadcastGroupId = false

/-- The state `t` has the one-shot flag and the group id of `s`. -/
def SameFlags (s t : State) : Prop :=
  t.isIntialRender = s.isIntialRender ∧ t.broadcastGroupId = s.broadcastGroupId

/-- The filter dialog is open on `sampleState` with the draft
`bedroomMin: '3', bedroomMax: '1'`. -/
def sampleDraftState : State :=
  { sampleState with
    isFilterModalOpen := true,
    tempFilterCriteria :=
      { emptyFilterCriteria with bedroomMin := some "3".toList, bedroomMax := some "1".toList } }

/-- The cells of the header as the specification words them: the first line,
separated at commas, each cell trimmed and lower-cased. -/
def headerCellsSpec (csvText : Str) : List Str :=
  (splitComma ((splitLines csvText).headD [])).map fun cell => toLowerCase (trim cell)

/-- A file whose header is `Email,Phone`. -/
def sampleCsv : Str := "Email,Phone\na@b.c,111".toList

/-- The record arrays, the page, the search term and the selection set of `t`
are those of `s`. -/
def SameRecords (s t : State) : Prop :=
  t.data = s.data ∧ t.filteredData = s.filteredData ∧ t.paginatedData = s.paginatedData ∧
  t.currentPage = s.currentPage ∧ t.pageSize = s.pageSize ∧ t.searchTerm = s.searchTerm ∧
  t.selectedRecords = s.selectedRecords

/-- The events whose handlers touch neither the record arrays, nor the page,
nor the search term, nor the selection set. -/
def Event.isQuiet : Event → Bool
  | .search _ => false
  | .previous => false
  | .next => false
  | .pageChange _ => false
  | .objectChange _ => false
  | .recordSelection _ _ => false
  | .selectAll _ => false
  | .saveResolved => false
  | .back => false
  | .fetchResolved _ _ => false
  | _ => true

/-- The pagination invariant of the specification. -/
def PageInv (s : State) : Prop :=
  1 ≤ s.currentPage ∧ s.currentPage ≤ max 1 (totalPages s)

/-- Every jump in the sequence goes to a page whose number is an entry of
`pageNumbers` in the state the jump is made in: `handlePageChange` handles the
click on a page number. -/
def jumpsOffered : State → List Event → Bool
  | _, [] => true
  | s, e :: es =>
    (match e with
      | .pageChange selectedPage =>
        decide (some selectedPage ∈ (pageNumbers s).map PageEntry.number)
      | _ => true) &&
    jumpsOffered (step s e) es

/-- The events that load `sampleRecords` into a new component: the
configuration arrives, the user picks the object and the list view, and the
fetch that `handleListViewChange` issued resolves. -/
def sampleLoadTrace : List Event :=
  [ Event.configsResolved [("Lead".toList, sampleFields)],
    Event.objectChange "Lead".toList,
    Event.listViewChange "lv1".toList,
    Event.fetchResolved sampleFields sampleRecords ]

/-- Fifty-one raw records, `A1` to `A51` by name, with distinct Ids: six pages
of ten. -/
def sampleManyRecords : List RawRecord :=
  (List.range 51).map fun (i : Nat) =>
    { Id := [Char.ofNat (65 + i)],
      fields := [("Name".toList, 'A' :: (Nat.repr (i + 1)).toList),
        ("Phone".toList, (Nat.repr (100 + i)).toList)] }

/-- The events that load `sampleManyRecords` into a new component. -/
def sampleManyLoadTrace : List Event :=
  [ Event.configsResolved [("Lead".toList, sampleFields)],
    Event.objectChange "Lead".toList,
    Event.listViewChange "lv1".toList,
    Event.fetchResolved sampleFields sampleManyRecords ]

/-- The six pages are loaded; the user jumps to the last page and to page 5,
steps back and forth, searches for `a1`, which leaves two pages, and moves
through them. -/
def samplePagingTrace : List Event :=
  sampleManyLoadTrace ++
    [Event.pageChange 6, Event.pageChange 5, Event.previous, Event.next, Event.next,
      Event.next, Event.search "a1".toList, Event.next, Event.next, Event.pageChange 1,
      Event.pageChange 2]


/-- The selection can be sent: it is not empty and every selected Id belongs to
a row of `data` whose phone is not blank after trimming. -/
def SendValid (s : State) : Prop :=
  s.selectedRecords ≠ [] ∧
  ∀ recordId ∈ s.selectedRecords, ∃ record,
    s.data.find? (fun r => decide (r.Id = recordId)) = some record ∧ trim record.phone ≠ []


/-- Page 2 of `sampleRows`, two to a page, as `updateShownData` builds it with
`r1` and `r3` selected: it shows `r3`, selected, and `r4`. -/
def samplePage : State :=
  updateShownData { sampleState with selectedRecords := ["r1".toList, "r3".toList] }

/-- The number of non-default fields in the words of the specification: a
string field that is present counts when it is not blank after trimming, the
array field when it is not empty. -/
def nonDefaultFieldCount (c : FilterCriteria) : Nat :=
  (([c.community, c.area, c.building, c.priceRange] ++ c.bedroomMin.toList
      ++ c.bedroomMax.toList).filter fun v => decide (trim v ≠ [])).length
    + (if c.propertyTypes ≠ [] then 1 else 0)

/-- The filter dialog is open on `sampleState` with the draft
`community: 'Marina', bedroomMin: '1', bedroomMax: '3'`; no filter is applied
yet. -/
def sampleBedroomState : State :=
  { sampleState with
    isFilterModalOpen := true,
    tempFilterCriteria :=
      { emptyFilterCriteria with
        community := "Marina".toList, bedroomMin := some "1".toList,
        bedroomMax := some "3".toList } }

/-- The rows of `data` whose lower-cased name or phone contains the trimmed,
lower-cased search term; all rows when that term is empty. -/
def freeTextFilter (data : List Row) (searchTerm : Str) : List Row :=
  data.filter fun row =>
    decide (trim (toLowerCase searchTerm) = []) ||
      decide (trim (toLowerCase searchTerm) <:+: toLowerCase row.name) ||
      decide (trim (toLowerCase searchTerm) <:+: toLowerCase row.phone)

/-- The events of the counterexample to C20: the records are loaded, the user
searches for `ali`, applies the filters, and the fetch that this issued
resolves with the same records. -/
def sampleSearchThenFetch : List Event :=
  sampleLoadTrace ++ [Event.search "ali".toList, Event.applyFilters,
    Event.fetchResolved sampleFields sampleRecords]

/-- The filtered view is the whole of `data` or its free-text filter. -/
def ViewInv (s : State) : Prop :=
  s.filteredData = s.data ∨ s.filteredData = freeTextFilter s.data s.searchTerm


/-- The events of the failing input of C24: the user types `Marina` into the
community filter and applies it. -/
def sampleFilterTrace : List Event :=
  [Event.filterInputChange (FilterInput.community "Marina".toList), Event.applyFilters]


/-- The Ids of a list of rows, in order. -/
def rowIds (rows : List Row) : List Str := rows.map fun r => r.Id

/-- A fetch resolves with records whose Ids are pairwise distinct; every other
event passes. -/
def Event.hasDistinctIds : Event → Bool
  | .fetchResolved _ data => decide ((data.map fun r => r.Id).Nodup)
  | _ => true

/-- The mirror invariant together with what keeps it: the Ids of the full
record set, of the filtered view and of the visible page are pairwise
distinct. -/
def MirrorInv (s : State) : Prop :=
  Mirror s ∧ (rowIds s.data).Nodup ∧ (rowIds s.filteredData).Nodup ∧
    (rowIds s.paginatedData).Nodup


/-- The number of a numbered entry. -/
def IndexItem.number? : IndexItem → Option Int
  | .page n _ => some n
  | .ellipsis => none

/-- The number of an entry that is marked active. -/
def IndexItem.activeNumber? : IndexItem → Option Int
  | .page n true => some n
  | _ => none

/-- The numbers of the numbered entries, in order. -/
def numbersOf (l : List IndexItem) : List Int := l.filterMap IndexItem.number?

/-- The numbers of the entries marked active, in order. -/
def activeOf (l : List IndexItem) : List Int := l.filterMap IndexItem.activeNumber?

/-- The list starts and ends with a numbered entry, two numbered entries that
stand next to each other differ by at most 1, and an ellipsis stands only
between two numbered entries that differ by more than 1. -/
def ellipsesMarkGaps : List IndexItem → Bool
  | [] => true
  | [.page _ _] => true
  | .page a _ :: .page b x :: rest =>
    decide (b - a ≤ 1) && ellipsesMarkGaps (.page b x :: rest)
  | .page a _ :: .ellipsis :: .page b x :: rest =>
    decide (b - a > 1) && ellipsesMarkGaps (.page b x :: rest)
  | _ => false


/-- The records are loaded, the filter dialog is opened and the user types `10`
into the bedroom minimum and `9` into the bedroom maximum. -/
def sampleTenNineState : State :=
  run (initialState none)
    (sampleLoadTrace ++ [Event.filterModalOpen,
      Event.filterInputChange (FilterInput.bedroomMin "10".toList),
      Event.filterInputChange (FilterInput.bedroomMax "9".toList)])

/-- The records are loaded, the filter dialog is opened and the user types `9`
into the bedroom minimum and `10` into the bedroom maximum. -/
def sampleNineTenState : State :=
  run (initialState none)
    (sampleLoadTrace ++ [Event.filterModalOpen,
      Event.filterInputChange (FilterInput.bedroomMin "9".toList),
      Event.filterInputChange (FilterInput.bedroomMax "10".toList)])

/-! ## Theorems -/

/-! ### Strings, slices and ranges -/

theorem includes_iff (s t : Str) : includes s t = true ↔ t <:+: s := by
  unfold includes
  rw [List.any_eq_true]
  constructor
  · rintro ⟨u, hu, hp⟩
    exact List.infix_iff_prefix_suffix.mpr
      ⟨u, List.isPrefixOf_iff_prefix.mp hp, (List.mem_tails u s).mp hu⟩
  · intro h
    obtain ⟨u, hp, hs⟩ := List.infix_iff_prefix_suffix.mp h
    exact ⟨u, (List.mem_tails u s).mpr hs, List.isPrefixOf_iff_prefix.mpr hp⟩

theorem jsSlice_natCast {α : Type} (xs : List α) (a b : Nat) :
    jsSlice xs (a : Int) (b : Int) = (xs.drop a).take (b - a) := by
  unfold jsSlice
  have ha : ¬ ((a : Int) < 0) := by omega
  have hb : ¬ ((b : Int) < 0) := by omega
  simp only [ha, hb, if_false]
  by_cases h : a ≤ xs.length
  · have h1 : (min (a : Int) (xs.length : Int)).toNat = a := by omega
    have h2 : (min (b : Int) (xs.length : Int) - min (a : Int) (xs.length : Int)).toNat
        = min b xs.length - a := by omega
    rw [h1, h2]
    apply List.ext_getElem?
    intro i
    simp only [List.getElem?_take, List.getElem?_drop]
    by_cases hi : i < b - a
    · by_cases hi2 : i < min b xs.length - a
      · simp [hi, hi2]
      · have : xs.length ≤ a + i := by omega
        simp [hi, hi2, List.getElem?_eq_none this]
    · have hi2 : ¬ i < min b xs.length - a := by omega
      simp [hi, hi2]
  · have h1 : (min (a : Int) (xs.length : Int)).toNat = xs.length := by omega
    rw [h1, List.drop_of_length_le (le_refl _), List.drop_of_length_le (by omega)]
    simp

theorem foldl_push {α β : Type} (f : α → β) (l : List α) (init : List β) :
    l.foldl (fun pages i => pages ++ [f i]) init = init ++ l.map f := by
  induction l generalizing init with
  | nil => simp
  | cons x xs ih => simp [ih]

theorem mem_forRange (a b i : Int) : i ∈ forRange a b ↔ a ≤ i ∧ i ≤ b := by
  unfold forRange
  simp only [List.mem_map, List.mem_range]
  constructor
  · rintro ⟨k, hk, rfl⟩
    omega
  · rintro ⟨h1, h2⟩
    exact ⟨(i - a).toNat, by omega, by omega⟩

theorem forRange_pairwise (a b : Int) : (forRange a b).Pairwise (· < ·) := by
  unfold forRange
  rw [List.pairwise_map]
  exact (List.pairwise_lt_range _).imp (by intro x y h; omega)

/-! ### Pagination -/

theorem updateShownData_page (s : State) (c : Nat) (hc : s.currentPage = (c : Int) + 1) :
    (updateShownData s).paginatedData =
      ((s.filteredData.drop (c * s.pageSize)).take s.pageSize).map
        (markSelected s.selectedRecords) := by
  have hs : (s.currentPage - 1) * (s.pageSize : Int) = ((c * s.pageSize : Nat) : Int) := by
    rw [hc]; push_cast; ring
  have he : min ((s.currentPage - 1) * (s.pageSize : Int) + s.pageSize) (totalItems s : Int)
      = ((min (c * s.pageSize + s.pageSize) (totalItems s) : Nat) : Int) := by
    rw [hs]; push_cast; rfl
  show (jsSlice s.filteredData _ _).map _ = _
  rw [he, hs, jsSlice_natCast]
  congr 1
  apply List.ext_getElem?
  intro i
  simp only [List.getElem?_take, List.getElem?_drop, totalItems]
  by_cases hi : i < s.pageSize
  · by_cases hi2 : i < min (c * s.pageSize + s.pageSize) s.filteredData.length - c * s.pageSize
    · simp [hi, hi2]
    · have : s.filteredData.length ≤ c * s.pageSize + i := by omega
      simp [hi, hi2, List.getElem?_eq_none this]
  · have hi2 : ¬ i < min (c * s.pageSize + s.pageSize) s.filteredData.length - c * s.pageSize := by
      omega
    simp [hi, hi2]

theorem flatMap_pages {α : Type} (l : List α) (p k : Nat) :
    (List.range k).flatMap (fun i => (l.drop (i * p)).take p) = l.take (k * p) := by
  induction k with
  | zero => simp
  | succ k ih =>
    rw [List.range_succ, List.flatMap_append, ih, Nat.succ_mul, List.take_add]
    simp

theorem le_ceilDiv_mul (n p : Nat) (hp : 0 < p) : n ≤ (n + p - 1) / p * p := by
  have h := Nat.lt_mul_div_succ (n + p - 1) hp
  rw [Nat.mul_add, Nat.mul_one, Nat.mul_comm] at h
  omega

theorem view_pageButton (i currentPage : Int) :
    (pageButton i currentPage).view = IndexItem.page i (decide (i = currentPage)) := by
  unfold pageButton PageEntry.view
  by_cases h : i = currentPage
  · simp [h]
  · simp [h]

theorem view_ellipsisEntry : ellipsisEntry.view = IndexItem.ellipsis := rfl

theorem pageNumbersOf_view (totalPages currentPage visiblePages : Int) :
    (pageNumbersOf totalPages currentPage visiblePages).map PageEntry.view =
      pageIndexSpec totalPages currentPage visiblePages := by
  unfold pageNumbersOf pageIndexSpec
  simp only [foldl_push]
  split_ifs <;>
    simp [List.map_append, view_pageButton, view_ellipsisEntry, Function.comp_def]

theorem pageNumbersOf_entries (totalPages currentPage visiblePages : Int) (e : PageEntry)
    (he : e ∈ pageNumbersOf totalPages currentPage visiblePages) :
    e = ellipsisEntry ∨ ∃ i, e = pageButton i currentPage := by
  unfold pageNumbersOf at he
  simp only [foldl_push] at he
  split_ifs at he <;> simp only [List.mem_append, List.mem_map, List.mem_singleton,
    List.nil_append, List.not_mem_nil, false_or] at he <;> aesop

/-! ### Search -/

theorem handleSearch_filteredData_eq (s : State) (value : Str) :
    (handleSearch s value).filteredData = s.data.filter fun item =>
      (trim (toLowerCase value)).isEmpty ||
        includes (toLowerCase item.name) (trim (toLowerCase value)) ||
        includes (toLowerCase item.phone) (trim (toLowerCase value)) := rfl

/-- C1: after `handleSearch` the filtered view is an order-preserving sublist of
`data`; a row of `data` is in it exactly when the trimmed, lower-cased search
term is empty or occurs as a substring of the lower-cased name or of the
lower-cased phone; and with an empty term the filtered view is `data` itself. -/
theorem handleSearch_filteredData_sound (s : State) (value : Str) :
    List.Sublist (handleSearch s value).filteredData s.data ∧
    (∀ row, row ∈ (handleSearch s value).filteredData ↔
      row ∈ s.data ∧
        (trim (toLowerCase value) = [] ∨
          trim (toLowerCase value) <:+: toLowerCase row.name ∨
          trim (toLowerCase value) <:+: toLowerCase row.phone)) ∧
    (trim (toLowerCase value) = [] → (handleSearch s value).filteredData = s.data) := by
  rw [handleSearch_filteredData_eq]
  refine ⟨List.filter_sublist _, ?_, ?_⟩
  · intro row
    simp only [List.mem_filter, Bool.or_eq_true, includes_iff, List.isEmpty_iff]
    tauto
  · intro h
    simp [h]

/-! ### Pages -/

/-- C2: for a positive page size and a current page of at least 1, the page
built by `updateShownData` is the run of rows of the filtered view from index
`(currentPage-1)*pageSize` up to, not including, `min(currentPage*pageSize,
totalItems)`, in order, each copied with `isSelected` set from the selection
set; its length is `min(pageSize, totalItems - (currentPage-1)*pageSize)` when
that is non-negative and 0 otherwise. -/
theorem updateShownData_page_slice (s : State) (hp : 0 < s.pageSize)
    (hc : 1 ≤ s.currentPage) :
    (updateShownData s).paginatedData =
      ((s.filteredData.drop ((s.currentPage.toNat - 1) * s.pageSize)).take
        (min (s.currentPage.toNat * s.pageSize) (totalItems s)
          - (s.currentPage.toNat - 1) * s.pageSize)).map (markSelected s.selectedRecords) ∧
    ((updateShownData s).paginatedData.length : Int) =
      (if 0 ≤ min (s.pageSize : Int) ((totalItems s : Int) - (s.currentPage - 1) * s.pageSize)
       then min (s.pageSize : Int) ((totalItems s : Int) - (s.currentPage - 1) * s.pageSize)
       else 0) := by
  obtain ⟨c, hc1⟩ : ∃ c : Nat, s.currentPage = (c : Int) + 1 :=
    ⟨(s.currentPage - 1).toNat, by omega⟩
  have hn : s.currentPage.toNat = c + 1 := by omega
  have hmul : (c + 1) * s.pageSize = c * s.pageSize + s.pageSize := by ring
  have hcast : (s.currentPage - 1) * (s.pageSize : Int) = ((c * s.pageSize : Nat) : Int) := by
    rw [hc1]; push_cast; ring
  rw [updateShownData_page s c hc1, hn, hcast]
  simp only [Nat.add_sub_cancel, totalItems, hmul]
  constructor
  · congr 1
    apply List.ext_getElem?
    intro i
    simp only [List.getElem?_take, List.getElem?_drop]
    by_cases hi : i < s.pageSize
    · by_cases hi2 : i < min (c * s.pageSize + s.pageSize) s.filteredData.length
          - c * s.pageSize
      · simp [hi, hi2]
      · have : s.filteredData.length ≤ c * s.pageSize + i := by omega
        simp [hi, hi2, List.getElem?_eq_none this]
    · have hi2 : ¬ i < min (c * s.pageSize + s.pageSize) s.filteredData.length
          - c * s.pageSize := by omega
      simp [hi, hi2]
  · simp only [List.length_map, List.length_take, List.length_drop]
    split_ifs <;> omega

/-- Witness of C2 on `sampleState`: page 2 of five rows, two to a page, holds `r3`
and `r4`. -/
theorem updateShownData_page_slice_witness :
    (0 < sampleState.pageSize ∧ 1 ≤ sampleState.currentPage) ∧
    (updateShownData sampleState).paginatedData =
      ((sampleState.filteredData.drop ((sampleState.currentPage.toNat - 1) *
          sampleState.pageSize)).take
        (min (sampleState.currentPage.toNat * sampleState.pageSize) (totalItems sampleState)
          - (sampleState.currentPage.toNat - 1) * sampleState.pageSize)).map
        (markSelected sampleState.selectedRecords) ∧
    ((updateShownData sampleState).paginatedData.map fun r => (r.Id, r.isSelected)) =
      [("r3".toList, true), ("r4".toList, false)] :=
  ⟨⟨by decide, by decide⟩,
   (updateShownData_page_slice sampleState (by decide) (by decide)).1, by decide⟩

/-- C3: for a positive page size, the pages built by `updateShownData` for
`currentPage = 1, ..., totalPages`, concatenated in order, are the rows of the
filtered view, each copied with `isSelected` set from the selection set: the
same number of rows, in the same order, with the same index, Id, name and
phone. -/
theorem pages_concat_eq_filteredData (s : State) (hp : 0 < s.pageSize) :
    (List.range (totalPages s).toNat).flatMap
        (fun i => (updateShownData { s with currentPage := (i : Int) + 1 }).paginatedData) =
      s.filteredData.map (markSelected s.selectedRecords) ∧
    ((List.range (totalPages s).toNat).flatMap
        (fun i => (updateShownData { s with currentPage := (i : Int) + 1 }).paginatedData)).length =
      s.filteredData.length ∧
    ((List.range (totalPages s).toNat).flatMap
        (fun i => (updateShownData { s with currentPage := (i : Int) + 1 }).paginatedData)).map
        (fun r => (r.index, r.Id, r.name, r.phone)) =
      s.filteredData.map (fun r => (r.index, r.Id, r.name, r.phone)) := by
  have key : (List.range (totalPages s).toNat).flatMap
        (fun i => (updateShownData { s with currentPage := (i : Int) + 1 }).paginatedData) =
      s.filteredData.map (markSelected s.selectedRecords) := by
    have hpage : ∀ i : Nat,
        (updateShownData { s with currentPage := (i : Int) + 1 }).paginatedData =
          ((s.filteredData.drop (i * s.pageSize)).take s.pageSize).map
            (markSelected s.selectedRecords) :=
      fun i => updateShownData_page { s with currentPage := (i : Int) + 1 } i rfl
    simp only [hpage]
    rw [← List.map_flatMap, flatMap_pages]
    have hk : (totalPages s).toNat = (s.filteredData.length + s.pageSize - 1) / s.pageSize := by
      unfold totalPages totalItems
      exact Int.toNat_ofNat _
    rw [hk, List.take_of_length_le (le_ceilDiv_mul _ _ hp)]
  rw [key]
  refine ⟨rfl, by simp, ?_⟩
  simp [List.map_map, Function.comp_def, markSelected]

/-- Witness of C3 on `sampleState`: its three pages hold the five rows in order. -/
theorem pages_concat_eq_filteredData_witness :
    0 < sampleState.pageSize ∧
    ((List.range (totalPages sampleState).toNat).flatMap
        (fun i => (updateShownData { sampleState with currentPage := (i : Int) + 1 }).paginatedData)).map
        (fun r => (r.index, r.Id, r.name, r.phone)) =
      sampleState.filteredData.map (fun r => (r.index, r.Id, r.name, r.phone)) :=
  ⟨by decide, (pages_concat_eq_filteredData sampleState (by decide)).2.2⟩

/-- C4: the entries of `pageNumbers` are page buttons and ellipsis markers, and
shown as numbers with an active flag they are the windowed page index of the
specification for every total, current page and window: all of `1..totalPages`
when `totalPages ≤ visiblePages`; otherwise page 1, an ellipsis iff
`currentPage > 3`, the numbers from `max(2, currentPage-1)` to
`min(currentPage+1, totalPages-1)`, an ellipsis iff `currentPage < totalPages-2`,
and `totalPages`; a number is active iff it equals `currentPage`.  The numbers
of a window run upwards through exactly the integers between its bounds.  For
12 pages, a window of 5 and page 6 the index is `1 … 5 6 7 … 12` with only 6
active. -/
theorem pageNumbers_windowed :
    (∀ s : State, (pageNumbers s).map PageEntry.view =
      pageIndexSpec (totalPages s) s.currentPage s.visiblePages) ∧
    (∀ (totalPages currentPage visiblePages : Int),
      (pageNumbersOf totalPages currentPage visiblePages).map PageEntry.view =
        pageIndexSpec totalPages currentPage visiblePages ∧
      ∀ e ∈ pageNumbersOf totalPages currentPage visiblePages,
        e = ellipsisEntry ∨ ∃ i, e = pageButton i currentPage) ∧
    (∀ a b : Int, (forRange a b).Pairwise (· < ·) ∧ ∀ i, i ∈ forRange a b ↔ a ≤ i ∧ i ≤ b) ∧
    totalPages sampleState12 = 12 ∧
    (pageNumbers sampleState12).map PageEntry.view =
      [IndexItem.page 1 false, IndexItem.ellipsis, IndexItem.page 5 false,
       IndexItem.page 6 true, IndexItem.page 7 false, IndexItem.ellipsis,
       IndexItem.page 12 false] := by
  refine ⟨fun s => pageNumbersOf_view _ _ _, fun tp cp vp => ⟨pageNumbersOf_view tp cp vp,
    fun e he => pageNumbersOf_entries tp cp vp e he⟩,
    fun a b => ⟨forRange_pairwise a b, mem_forRange a b⟩, by decide, by decide⟩

/-! ### Selection across paging and searching -/

theorem updateShownData_selectedRecords (s : State) :
    (updateShownData s).selectedRecords = s.selectedRecords := rfl

theorem updateShownData_mirror (s : State) : Mirror (updateShownData s) := by
  intro row hrow
  obtain ⟨r, -, rfl⟩ := List.mem_map.mp hrow
  rfl

theorem step_navigation_selectedRecords (s : State) (e : Event)
    (h : e.isNavigation = true) : (step s e).selectedRecords = s.selectedRecords := by
  cases e <;> simp only [Event.isNavigation] at h <;> try exact absurd h (by decide)
  · rfl
  · simp only [step, handlePrevious]; split_ifs <;> rfl
  · simp only [step, handleNext]; split_ifs <;> rfl
  · simp only [step, handlePageChange]; split_ifs <;> rfl

theorem step_navigation_mirror (s : State) (e : Event) (h : e.isNavigation = true)
    (hm : Mirror s) : Mirror (step s e) := by
  cases e <;> simp only [Event.isNavigation] at h <;> try exact absurd h (by decide)
  · exact updateShownData_mirror _
  · simp only [step, handlePrevious]; split_ifs
    · exact updateShownData_mirror _
    · exact hm
  · simp only [step, handleNext]; split_ifs
    · exact updateShownData_mirror _
    · exact hm
  · simp only [step, handlePageChange]; split_ifs
    · exact updateShownData_mirror _
    · exact hm

theorem run_navigation (s : State) (events : List Event)
    (h : ∀ e ∈ events, e.isNavigation = true) :
    (run s events).selectedRecords = s.selectedRecords ∧ (Mirror s → Mirror (run s events)) := by
  induction events generalizing s with
  | nil => exact ⟨rfl, id⟩
  | cons e es ih =>
    have he := h e (List.mem_cons_self _ _)
    have hes : ∀ e' ∈ es, e'.isNavigation = true := fun e' h' => h e' (List.mem_cons_of_mem _ h')
    obtain ⟨h1, h2⟩ := ih (step s e) hes
    exact ⟨h1.trans (step_navigation_selectedRecords s e he),
      fun hm => h2 (step_navigation_mirror s e he hm)⟩

theorem mem_add (set : JsSet) (x y : Str) : y ∈ set.add x ↔ y ∈ set ∨ y = x := by
  unfold JsSet.add
  split_ifs with h
  · constructor
    · exact Or.inl
    · rintro (h' | rfl)
      · exact h'
      · exact h
  · simp

theorem mem_delete (set : JsSet) (x y : Str) : y ∈ set.delete x ↔ y ∈ set ∧ y ≠ x := by
  simp [JsSet.delete]

theorem has_iff (set : JsSet) (x : Str) : set.has x = true ↔ x ∈ set := by
  simp [JsSet.has]

theorem handleRecordSelection_checked_mem (s : State) (recordId : Str)
    (h : ∃ row ∈ s.paginatedData, row.Id = recordId) :
    recordId ∈ (handleRecordSelection s recordId true).selectedRecords := by
  obtain ⟨row, hrow, hid⟩ := h
  unfold handleRecordSelection
  cases hf : s.paginatedData.find? fun row => decide (row.Id = recordId) with
  | none =>
    rw [List.find?_eq_none] at hf
    exact absurd (by simpa using hid) (hf row hrow)
  | some r =>
    simp [mem_add]

/-- C5: a sequence of `handlePrevious`, `handleNext`, `handlePageChange` and
`handleSearch` events leaves the selection set unchanged; every page that
`updateShownData` builds afterwards shows each row with `isSelected` equal to
its membership in that set, and a visible page that mirrored the set before
still mirrors it after; so a record of the visible page toggled on before the
sequence is still in the set after it and is shown selected on every page
built afterwards that contains it. -/
theorem selection_persists_across_navigation (s : State) (events : List Event)
    (h : ∀ e ∈ events, e.isNavigation = true) :
    (run s events).selectedRecords = s.selectedRecords ∧
    (∀ row ∈ (updateShownData (run s events)).paginatedData,
      row.isSelected = s.selectedRecords.has row.Id) ∧
    (Mirror s → Mirror (run s events)) ∧
    (∀ recordId, (∃ row ∈ s.paginatedData, row.Id = recordId) →
      recordId ∈ (run (handleRecordSelection s recordId true) events).selectedRecords ∧
      ∀ row ∈ (updateShownData (run (handleRecordSelection s recordId true) events)).paginatedData,
        row.Id = recordId → row.isSelected = true) := by
  obtain ⟨h1, h2⟩ := run_navigation s events h
  refine ⟨h1, ?_, h2, ?_⟩
  · intro row hrow
    have := updateShownData_mirror (run s events) row hrow
    rw [updateShownData_selectedRecords, h1] at this
    exact this
  · intro recordId hex
    obtain ⟨h3, -⟩ := run_navigation (handleRecordSelection s recordId true) events h
    have hmem := handleRecordSelection_checked_mem s recordId hex
    refine ⟨by rw [h3]; exact hmem, ?_⟩
    intro row hrow hid
    have := updateShownData_mirror _ row hrow
    rw [updateShownData_selectedRecords, h3, hid] at this
    rw [this]
    exact (has_iff _ _).mpr hmem

/-- Witness of C5: on the first page of `sampleRows`, `r1` is toggled on, the
user goes to page 2 and back, and `r1` is still selected and shown selected. -/
theorem selection_persists_across_navigation_witness :
    (∀ e ∈ [Event.next, Event.previous], e.isNavigation = true) ∧
    (run (handleRecordSelection (handlePageChange sampleState 1) "r1".toList true)
        [Event.next, Event.previous]).selectedRecords =
      (handleRecordSelection (handlePageChange sampleState 1) "r1".toList true).selectedRecords ∧
    ((run (handleRecordSelection (handlePageChange sampleState 1) "r1".toList true)
        [Event.next, Event.previous]).paginatedData.map fun r => (r.Id, r.isSelected)) =
      [("r1".toList, true), ("r2".toList, false)] :=
  ⟨by decide,
   (selection_persists_across_navigation
      (handleRecordSelection (handlePageChange sampleState 1) "r1".toList true)
      [Event.next, Event.previous] (by decide)).1,
   by decide⟩

/-! ### Object change -/

/-- C6: after `handleObjectChange`, whatever the state was, the selection set,
the full record set, the filtered view and the visible page are empty, the
selected list view is blank, the current page is 1 and the selected object is
the new value. -/
theorem handleObjectChange_clears (s : State) (value : Str) :
    (handleObjectChange s value).selectedRecords = [] ∧
    (handleObjectChange s value).data = [] ∧
    (handleObjectChange s value).filteredData = [] ∧
    (handleObjectChange s value).paginatedData = [] ∧
    (handleObjectChange s value).selectedListView = [] ∧
    (handleObjectChange s value).currentPage = 1 ∧
    (handleObjectChange s value).selectedObject = value :=
  ⟨rfl, rfl, rfl, rfl, rfl, rfl, rfl⟩

/-! ### Fetch and reconciliation -/

theorem fetchRecordsThen_due (s : State) (fields : FieldConfig) (data : List RawRecord)
    (h : reconciliationDue s = true) :
    fetchRecordsThen s fields data =
      updateShownData
        { s with
          currentPage := 1, isIntialRender := false,
          data := (fetchedRows fields data).map fun (record : Row) =>
            if some record.phone ∈ s.groupMembers.map (fun member => member.Phone_Number__c)
            then { record with isSelected := true } else record,
          filteredData := (fetchedRows fields data).map fun (record : Row) =>
            if some record.phone ∈ s.groupMembers.map (fun member => member.Phone_Number__c)
            then { record with isSelected := true } else record,
          selectedRecords := (fetchedRows fields data).foldl
            (fun (set : JsSet) (record : Row) =>
              if some record.phone ∈ s.groupMembers.map (fun member => member.Phone_Number__c)
              then set.add record.Id else set)
            s.selectedRecords } := by
  have h' : reconciliationDue
      { s with data := fetchedRows fields data, filteredData := fetchedRows fields data,
               currentPage := 1 } = true := h
  unfold fetchRecordsThen
  simp only
  rw [if_pos h']

theorem fetchRecordsThen_not_due (s : State) (fields : FieldConfig) (data : List RawRecord)
    (h : reconciliationDue s = false) :
    fetchRecordsThen s fields data =
      updateShownData
        { s with
          currentPage := 1, data := fetchedRows fields data,
          filteredData := fetchedRows fields data, selectedRecords := [] } := by
  have h' : reconciliationDue
      { s with data := fetchedRows fields data, filteredData := fetchedRows fields data,
               currentPage := 1 } = false := h
  unfold fetchRecordsThen
  simp only
  rw [if_neg (by rw [h']; decide)]

theorem nodup_add (set : JsSet) (x : Str) (h : set.Nodup) : (set.add x).Nodup := by
  unfold JsSet.add
  split_ifs with hx
  · exact h
  · rw [List.nodup_append]
    refine ⟨h, List.nodup_singleton x, ?_⟩
    intro a ha hb
    rw [List.mem_singleton] at hb
    exact hx (hb ▸ ha)

theorem foldl_add_mem (p : Row → Prop) [DecidablePred p] (rows : List Row) (init : JsSet)
    (id : Str) :
    id ∈ rows.foldl (fun (set : JsSet) (record : Row) =>
        if p record then set.add record.Id else set) init ↔
      id ∈ init ∨ ∃ row ∈ rows, p row ∧ row.Id = id := by
  induction rows generalizing init with
  | nil => simp
  | cons r rs ih =>
    rw [List.foldl_cons, ih]
    by_cases hp : p r
    · simp only [hp, if_true, mem_add, List.mem_cons, exists_eq_or_imp, true_and]
      constructor
      · rintro ((h | h) | h)
        · exact Or.inl h
        · exact Or.inr (Or.inl h.symm)
        · exact Or.inr (Or.inr h)
      · rintro (h | h | h)
        · exact Or.inl (Or.inl h)
        · exact Or.inl (Or.inr h.symm)
        · exact Or.inr h
    · simp [hp]

theorem foldl_add_nodup (p : Row → Prop) [DecidablePred p] (rows : List Row) (init : JsSet)
    (h : init.Nodup) :
    (rows.foldl (fun (set : JsSet) (record : Row) =>
        if p record then set.add record.Id else set) init).Nodup := by
  induction rows generalizing init with
  | nil => exact h
  | cons r rs ih =>
    rw [List.foldl_cons]
    apply ih
    split_ifs
    · exact nodup_add _ _ h
    · exact h

theorem mem_fetchedRows (fields : FieldConfig) (data : List RawRecord) (row : Row) :
    row ∈ fetchedRows fields data → ∃ record ∈ data,
      row.Id = record.Id ∧ row.phone = (record.get fields.phoneField).getD [] ∧
      row.isSelected = false := by
  unfold fetchedRows
  rw [List.mem_map]
  rintro ⟨⟨i, record⟩, hmem, rfl⟩
  exact ⟨record, (List.mem_enum hmem).2 ▸ List.getElem_mem _, rfl, rfl, rfl⟩

theorem exists_fetchedRow (fields : FieldConfig) (data : List RawRecord) (record : RawRecord)
    (h : record ∈ data) : ∃ row ∈ fetchedRows fields data,
      row.Id = record.Id ∧ row.phone = (record.get fields.phoneField).getD [] := by
  obtain ⟨i, hi, rfl⟩ := List.getElem_of_mem h
  refine ⟨toRow fields i data[i], ?_, rfl, rfl⟩
  unfold fetchedRows
  rw [List.mem_map]
  refine ⟨(i, data[i]), ?_, rfl⟩
  rw [List.mem_iff_getElem]
  exact ⟨i, by simpa using hi, by simp⟩

theorem reconciliationDue_of (s : State) (hflag : s.isIntialRender = true)
    (hid : truthy s.broadcastGroupId = true) (hmem : s.groupMembers ≠ []) :
    reconciliationDue s = true := by
  have : 0 < s.groupMembers.length := List.length_pos.mpr hmem
  simp [reconciliationDue, hflag, hid, this]

/-- C7: in edit mode (the one-shot flag set, a group id, a non-empty membership
snapshot) and from an empty selection set, after a successful fetch the
selection set holds, without repetition, exactly the Ids of the fetched records
whose normalised phone is the `Phone_Number__c` of some member; the rows of
`data` are the fetched records in order, and a row has `isSelected = true`
exactly when its phone is the phone of some member; the filtered view is
`data`. -/
theorem reconciliation_selects_matching (s : State) (fields : FieldConfig)
    (data : List RawRecord) (hflag : s.isIntialRender = true)
    (hid : truthy s.broadcastGroupId = true) (hmem : s.groupMembers ≠ [])
    (hsel : s.selectedRecords = []) :
    (∀ id, id ∈ (fetchRecordsResolved s fields data).selectedRecords ↔
      ∃ record ∈ data, record.Id = id ∧
        ∃ member ∈ s.groupMembers,
          member.Phone_Number__c = some ((record.get fields.phoneField).getD [])) ∧
    (fetchRecordsResolved s fields data).selectedRecords.Nodup ∧
    ((fetchRecordsResolved s fields data).data.map fun r => (r.index, r.Id, r.name, r.phone)) =
      (data.enum.map fun p => (p.1 + 1, p.2.Id, (p.2.get fields.nameField).getD [],
        (p.2.get fields.phoneField).getD [])) ∧
    (∀ row ∈ (fetchRecordsResolved s fields data).data,
      row.isSelected = true ↔
        ∃ member ∈ s.groupMembers, member.Phone_Number__c = some row.phone) ∧
    (fetchRecordsResolved s fields data).filteredData =
      (fetchRecordsResolved s fields data).data := by
  have hdue := reconciliationDue_of s hflag hid hmem
  have hp : ∀ phone : Str, some phone ∈ s.groupMembers.map (fun member => member.Phone_Number__c) ↔
      ∃ member ∈ s.groupMembers, member.Phone_Number__c = some phone := by
    intro phone
    simp [List.mem_map]
  unfold fetchRecordsResolved
  rw [fetchRecordsThen_due s fields data hdue]
  refine ⟨?_, ?_, ?_, ?_, rfl⟩
  · intro id
    show id ∈ List.foldl _ s.selectedRecords _ ↔ _
    rw [foldl_add_mem (fun row : Row =>
      some row.phone ∈ s.groupMembers.map (fun member => member.Phone_Number__c)), hsel]
    simp only [List.not_mem_nil, false_or, hp]
    constructor
    · rintro ⟨row, hrow, hm, rfl⟩
      obtain ⟨record, hrec, h1, h2, -⟩ := mem_fetchedRows fields data row hrow
      exact ⟨record, hrec, h1.symm, h2 ▸ hm⟩
    · rintro ⟨record, hrec, rfl, hm⟩
      obtain ⟨row, hrow, h1, h2⟩ := exists_fetchedRow fields data record hrec
      exact ⟨row, hrow, h2 ▸ hm, h1⟩
  · show (List.foldl _ s.selectedRecords _).Nodup
    apply foldl_add_nodup (fun row : Row =>
      some row.phone ∈ s.groupMembers.map (fun member => member.Phone_Number__c))
    rw [hsel]
    exact List.nodup_nil
  · show List.map _ (List.map _ (fetchedRows fields data)) = _
    unfold fetchedRows
    rw [List.map_map, List.map_map]
    apply List.map_congr_left
    rintro ⟨i, record⟩ -
    simp only [Function.comp_apply]
    split_ifs <;> rfl
  · intro row hrow
    change row ∈ List.map _ (fetchedRows fields data) at hrow
    obtain ⟨r, hr, rfl⟩ := List.mem_map.mp hrow
    obtain ⟨record, -, -, -, hfalse⟩ := mem_fetchedRows fields data r hr
    by_cases hm : some r.phone ∈ s.groupMembers.map (fun member => member.Phone_Number__c)
    · rw [if_pos hm]
      exact ⟨fun _ => (hp _).mp hm, fun _ => rfl⟩
    · rw [if_neg hm, hfalse]
      exact ⟨fun h => absurd h (by decide), fun h => absurd ((hp _).mpr h) hm⟩

/-- Witness of C7: two members with the phones of `r2` and `r4`, five fetched
records: exactly `r2` and `r4` are selected. -/
theorem reconciliation_selects_matching_witness :
    (sampleEditState.isIntialRender = true ∧ truthy sampleEditState.broadcastGroupId = true ∧
      sampleEditState.groupMembers ≠ [] ∧ sampleEditState.selectedRecords = []) ∧
    (fetchRecordsResolved sampleEditState sampleFields sampleRecords).selectedRecords.Nodup ∧
    (fetchRecordsResolved sampleEditState sampleFields sampleRecords).selectedRecords =
      ["r2".toList, "r4".toList] ∧
    ((fetchRecordsResolved sampleEditState sampleFields sampleRecords).data.map
        fun r => (r.Id, r.isSelected)) =
      [("r1".toList, false), ("r2".toList, true), ("r3".toList, false),
       ("r4".toList, true), ("r5".toList, false)] :=
  ⟨⟨by decide, by decide, by decide, by decide⟩,
   (reconciliation_selects_matching sampleEditState sampleFields sampleRecords
      (by decide) (by decide) (by decide) (by decide)).2.1,
   by decide, by decide⟩

/-! ### The one-shot flag -/

theorem fetchRecords_flags (s : State) :
    (∀ t, fetchRecords s = .ok t → SameFlags s t) ∧
    (∀ t, fetchRecords s = .error t → SameFlags s t) := by
  unfold fetchRecords
  split_ifs
  · constructor <;> intro t h <;> cases h
    exact ⟨rfl, rfl⟩
  · simp only
    split <;> constructor <;> intro t h <;> cases h <;> exact ⟨rfl, rfl⟩

theorem settle_flags (r : Except State State) : SameFlags
    (match r with | .ok s => s | .error s => s) (settle r) := by
  cases r <;> exact ⟨rfl, rfl⟩

theorem settle_fetchRecords_flags (s : State) : SameFlags s (settle (fetchRecords s)) := by
  cases h : fetchRecords s with
  | ok t => exact (fetchRecords_flags s).1 t h
  | error t => exact (fetchRecords_flags s).2 t h

theorem updateAppliedFilterCount_flags (s : State) :
    SameFlags s (updateAppliedFilterCount s) := ⟨rfl, rfl⟩

theorem handleApplyFilters_flags (s : State) : SameFlags s (handleApplyFilters s) := by
  unfold handleApplyFilters validateFilterCriteria
  split_ifs
  · exact ⟨rfl, rfl⟩
  · exact ⟨rfl, rfl⟩
  · exact settle_fetchRecords_flags
      (updateAppliedFilterCount
        { s with filterCriteria := s.tempFilterCriteria, isFilterModalOpen := false })

theorem step_flags (s : State) (e : Event) : SameFlags s (step s e) ∨ FlagSpent (step s e) := by
  cases e with
  | search value => exact Or.inl ⟨rfl, rfl⟩
  | previous => left; simp only [step, handlePrevious]; split_ifs <;> exact ⟨rfl, rfl⟩
  | next => left; simp only [step, handleNext]; split_ifs <;> exact ⟨rfl, rfl⟩
  | pageChange p => left; simp only [step, handlePageChange]; split_ifs <;> exact ⟨rfl, rfl⟩
  | objectChange v => exact Or.inl ⟨rfl, rfl⟩
  | listViewChange v => exact Or.inl (settle_fetchRecords_flags _)
  | recordSelection r c =>
    left; simp only [step, handleRecordSelection]; split <;> exact ⟨rfl, rfl⟩
  | selectAll c => exact Or.inl ⟨rfl, rfl⟩
  | modalOpen => left; simp only [step, handleModalOpen]; split_ifs <;> exact ⟨rfl, rfl⟩
  | closePopUp => exact Or.inl ⟨rfl, rfl⟩
  | inputChange n v => left; simp only [step, handleInputChange]; split_ifs <;> exact ⟨rfl, rfl⟩
  | save => left; simp only [step, handleSave]; split_ifs <;> exact ⟨rfl, rfl⟩
  | saveResolved => exact Or.inl ⟨rfl, rfl⟩
  | saveRejected m => exact Or.inl ⟨rfl, rfl⟩
  | back => exact Or.inr (Or.inr rfl)
  | filterModalOpen => exact Or.inl ⟨rfl, rfl⟩
  | filterModalClose => exact Or.inl ⟨rfl, rfl⟩
  | filterInputChange i => exact Or.inl ⟨rfl, rfl⟩
  | resetFilters => exact Or.inl (settle_fetchRecords_flags _)
  | applyFilters => exact Or.inl (handleApplyFilters_flags s)
  | fetchResolved fields data =>
    simp only [step, fetchRecordsResolved]
    cases h : reconciliationDue s with
    | true => rw [fetchRecordsThen_due s fields data h]; exact Or.inr (Or.inl rfl)
    | false => rw [fetchRecordsThen_not_due s fields data h]; exact Or.inl ⟨rfl, rfl⟩
  | fetchRejected m => exact Or.inl ⟨rfl, rfl⟩
  | listViewsResolved => exact Or.inl ⟨rfl, rfl⟩
  | listViewsRejected => exact Or.inl ⟨rfl, rfl⟩
  | configsResolved c => exact Or.inl ⟨rfl, rfl⟩
  | configsRejected => exact Or.inl ⟨rfl, rfl⟩
  | groupDetailsResolved result =>
    left
    simp only [step, fetchGroupDetailsResolved]
    split
    · rename_i t h
      have := (fetchRecords_flags _).1 t h
      exact ⟨this.1, this.2⟩
    · rename_i t h
      have := (fetchRecords_flags _).2 t h
      exact ⟨this.1, this.2⟩
  | groupDetailsRejected => exact Or.inl ⟨rfl, rfl⟩
  | connected =>
    left
    simp only [step, connectedCallback, fetchGroupDetails]
    split
    · exact ⟨rfl, rfl⟩
    · split_ifs <;> exact ⟨rfl, rfl⟩
  | csvFileChange file =>
    left
    simp only [step, handleCsvFileChange]
    split
    · exact ⟨rfl, rfl⟩
    · simp only [readerOnload]; split_ifs <;> exact ⟨rfl, rfl⟩
  | csvResolved result =>
    left
    simp only [step, processCsvStringResolved]
    split
    · rename_i t h
      have := (fetchRecords_flags _).1 t h
      exact ⟨this.1, this.2⟩
    · rename_i t h
      have := (fetchRecords_flags _).2 t h
      exact ⟨this.1, this.2⟩
  | csvRejected m => exact Or.inl ⟨rfl, rfl⟩

theorem step_flagSpent (s : State) (e : Event) (h : FlagSpent s) : FlagSpent (step s e) := by
  rcases step_flags s e with ⟨h1, h2⟩ | h'
  · unfold FlagSpent
    rw [h1, h2]
    exact h
  · exact h'

theorem run_flagSpent (s : State) (events : List Event) (h : FlagSpent s) :
    FlagSpent (run s events) := by
  induction events generalizing s with
  | nil => exact h
  | cons e es ih => exact ih (step s e) (step_flagSpent s e h)

theorem not_due_of_flagSpent (s : State) (h : FlagSpent s) : reconciliationDue s = false := by
  unfold reconciliationDue
  rcases h with h | h <;> simp [h]


theorem fetchedRows_unselected (fields : FieldConfig) (data : List RawRecord) :
    ∀ row ∈ fetchedRows fields data, row.isSelected = false := by
  intro row hrow
  obtain ⟨_, -, -, -, h⟩ := mem_fetchedRows fields data row hrow
  exact h

theorem fetchRecordsResolved_not_due (s : State) (fields : FieldConfig) (data : List RawRecord)
    (h : reconciliationDue s = false) :
    (fetchRecordsResolved s fields data).selectedRecords = [] ∧
    (fetchRecordsResolved s fields data).isIntialRender = s.isIntialRender ∧
    (fetchRecordsResolved s fields data).data = fetchedRows fields data ∧
    (fetchRecordsResolved s fields data).filteredData = fetchedRows fields data := by
  unfold fetchRecordsResolved
  rw [fetchRecordsThen_not_due s fields data h]
  exact ⟨rfl, rfl, rfl, rfl⟩

/-- C8: a fetch that runs the reconciliation branch consumes the one-shot flag;
after it, whatever events follow and whatever the membership snapshot and the
fetched records are, a successful fetch does not reconcile: it ends with an
empty selection set and no row marked selected.  And every successful fetch
from a state where reconciliation is not due ends with an empty selection set,
leaves the flag as it was and marks no row selected. -/
theorem reconciliation_one_shot (s t : State) (fields fields' : FieldConfig)
    (data data' : List RawRecord) (events : List Event) (members : List Member)
    (hs : reconciliationDue s = true) (ht : reconciliationDue t = false) :
    (fetchRecordsResolved s fields data).isIntialRender = false ∧
    reconciliationDue
      { run (fetchRecordsResolved s fields data) events with groupMembers := members } = false ∧
    (fetchRecordsResolved
      { run (fetchRecordsResolved s fields data) events with groupMembers := members }
      fields' data').selectedRecords = [] ∧
    (∀ row ∈ (fetchRecordsResolved
      { run (fetchRecordsResolved s fields data) events with groupMembers := members }
      fields' data').data, row.isSelected = false) ∧
    (fetchRecordsResolved t fields' data').selectedRecords = [] ∧
    (fetchRecordsResolved t fields' data').isIntialRender = t.isIntialRender ∧
    (∀ row ∈ (fetchRecordsResolved t fields' data').data, row.isSelected = false) := by
  have h0 : (fetchRecordsResolved s fields data).isIntialRender = false := by
    unfold fetchRecordsResolved
    rw [fetchRecordsThen_due s fields data hs]
    rfl
  have h1 : FlagSpent (run (fetchRecordsResolved s fields data) events) :=
    run_flagSpent _ events (Or.inl h0)
  have h2 : reconciliationDue
      { run (fetchRecordsResolved s fields data) events with groupMembers := members } = false :=
    not_due_of_flagSpent _ h1
  obtain ⟨a1, -, a3, -⟩ := fetchRecordsResolved_not_due _ fields' data' h2
  obtain ⟨b1, b2, b3, -⟩ := fetchRecordsResolved_not_due t fields' data' ht
  refine ⟨h0, h2, a1, ?_, b1, b2, ?_⟩
  · rw [a3]; exact fetchedRows_unselected fields' data'
  · rw [b3]; exact fetchedRows_unselected fields' data'

/-- Witness of C8: the first fetch of `sampleEditState` selects `r2` and `r4`
and consumes the flag; after the filters are applied, the next fetch of the
same records with the same members ends with an empty selection. -/
theorem reconciliation_one_shot_witness :
    (reconciliationDue sampleEditState = true ∧ reconciliationDue sampleState = false) ∧
    (fetchRecordsResolved sampleEditState sampleFields sampleRecords).selectedRecords =
      ["r2".toList, "r4".toList] ∧
    (fetchRecordsResolved sampleEditState sampleFields sampleRecords).isIntialRender = false ∧
    (fetchRecordsResolved
      { run (fetchRecordsResolved sampleEditState sampleFields sampleRecords)
          [Event.applyFilters] with groupMembers := sampleEditState.groupMembers }
      sampleFields sampleRecords).selectedRecords = [] :=
  ⟨⟨by decide, by decide⟩, by decide,
   (reconciliation_one_shot sampleEditState sampleState sampleFields sampleFields
      sampleRecords sampleRecords [Event.applyFilters] sampleEditState.groupMembers
      (by decide) (by decide)).1,
   (reconciliation_one_shot sampleEditState sampleState sampleFields sampleFields
      sampleRecords sampleRecords [Event.applyFilters] sampleEditState.groupMembers
      (by decide) (by decide)).2.2.1⟩


/-! ### Filter validation -/

theorem validateFilterCriteria_result (s : State) (c : FilterCriteria) :
    (validateFilterCriteria s c).2 =
      !(jsLtZero c.bedroomMax || jsLtZero c.bedroomMin || jsGt c.bedroomMin c.bedroomMax) := by
  unfold validateFilterCriteria
  split_ifs with h1 h2
  · rw [h1]; rfl
  · rw [Bool.not_eq_true] at h1
    rw [h1, h2]; rfl
  · rw [Bool.not_eq_true] at h1 h2
    rw [h1, h2]; rfl

theorem validateFilterCriteria_state (s : State) (c : FilterCriteria) :
    ((validateFilterCriteria s c).2 = true ∧ (validateFilterCriteria s c).1 = s) ∨
    ((validateFilterCriteria s c).2 = false ∧
      ((validateFilterCriteria s c).1 = showToast s "Warning!".toList
          "Bedroom count cannot be less than 0.".toList "warning".toList ∨
       (validateFilterCriteria s c).1 = showToast s "Warning!".toList
          "Minimum bedroom count cannot be greater than maximum.".toList "warning".toList)) := by
  unfold validateFilterCriteria
  split_ifs
  · exact Or.inr ⟨rfl, Or.inl rfl⟩
  · exact Or.inr ⟨rfl, Or.inr rfl⟩
  · exact Or.inl ⟨rfl, rfl⟩

theorem validateFilterCriteria_valid (s : State) (c : FilterCriteria)
    (h : (validateFilterCriteria s c).2 = true) : validateFilterCriteria s c = (s, true) := by
  rcases validateFilterCriteria_state s c with ⟨h1, h3⟩ | ⟨h1, -⟩
  · exact Prod.ext h3 h1
  · rw [h] at h1; cases h1

theorem handleApplyFilters_rejected (s : State)
    (h : (validateFilterCriteria s s.tempFilterCriteria).2 = false) :
    handleApplyFilters s = (validateFilterCriteria s s.tempFilterCriteria).1 := by
  unfold handleApplyFilters
  rcases hv : validateFilterCriteria s s.tempFilterCriteria with ⟨s1, b⟩
  rw [hv] at h
  simp only at h
  subst h
  rfl

theorem handleApplyFilters_rejected_toast (s : State)
    (h : (validateFilterCriteria s s.tempFilterCriteria).2 = false) :
    handleApplyFilters s = showToast s "Warning!".toList
        "Bedroom count cannot be less than 0.".toList "warning".toList ∨
    handleApplyFilters s = showToast s "Warning!".toList
        "Minimum bedroom count cannot be greater than maximum.".toList "warning".toList := by
  rw [handleApplyFilters_rejected s h]
  rcases validateFilterCriteria_state s s.tempFilterCriteria with ⟨h1, -⟩ | ⟨-, h2⟩
  · rw [h] at h1; cases h1
  · exact h2

theorem fetchRecords_frame (s t : State)
    (h : fetchRecords s = .ok t ∨ fetchRecords s = .error t) :
    t = { s with isLoading := t.isLoading, effects := t.effects } := by
  unfold fetchRecords at h
  split_ifs at h
  · rcases h with h | h <;> cases h
    rfl
  · simp only at h
    split at h <;> rcases h with h | h <;> cases h <;> rfl

theorem settle_fetchRecords_filter (s : State) :
    (settle (fetchRecords s)).filterCriteria = s.filterCriteria ∧
    (settle (fetchRecords s)).tempFilterCriteria = s.tempFilterCriteria ∧
    (settle (fetchRecords s)).appliedFilterCount = s.appliedFilterCount := by
  cases h : fetchRecords s with
  | ok t =>
    have := fetchRecords_frame s t (Or.inl h)
    show t.filterCriteria = _ ∧ t.tempFilterCriteria = _ ∧ t.appliedFilterCount = _
    rw [this]
    exact ⟨rfl, rfl, rfl⟩
  | error t =>
    have := fetchRecords_frame s t (Or.inr h)
    show t.filterCriteria = _ ∧ t.tempFilterCriteria = _ ∧ t.appliedFilterCount = _
    rw [this]
    exact ⟨rfl, rfl, rfl⟩

theorem handleApplyFilters_valid (s : State)
    (h : (validateFilterCriteria s s.tempFilterCriteria).2 = true) :
    handleApplyFilters s =
      settle (fetchRecords (updateAppliedFilterCount
        { s with filterCriteria := s.tempFilterCriteria, isFilterModalOpen := false })) := by
  unfold handleApplyFilters
  rw [validateFilterCriteria_valid s _ h]

theorem handleApplyFilters_accepted (s : State)
    (h : (validateFilterCriteria s s.tempFilterCriteria).2 = true) :
    (handleApplyFilters s).filterCriteria = s.tempFilterCriteria := by
  rw [handleApplyFilters_valid s h]
  exact (settle_fetchRecords_filter _).1

/-- C9: with `10` typed into the bedroom minimum and `9` into the maximum, a
minimum above the maximum, `validateFilterCriteria` returns true: the two
stored strings are compared by code unit.  The draft becomes the applied
criteria, the dialog closes and the fetch is issued.  With `9` and `10`, which
break no rule, the draft is rejected with the second warning.  In general
`validateFilterCriteria` returns false exactly when the maximum or the minimum
is below 0 as a number or the minimum is above the maximum as a string; then
`handleApplyFilters` only raises one of the two warnings and changes nothing
else, otherwise the draft becomes the applied criteria.  The drafts `3`/`1`
and `-1` are rejected. -/
theorem filter_validation :
    (sampleTenNineState.tempFilterCriteria.bedroomMin = some "10".toList ∧
      sampleTenNineState.tempFilterCriteria.bedroomMax = some "9".toList ∧
      digitsValue "10".toList > digitsValue "9".toList ∧
      validateFilterCriteria sampleTenNineState sampleTenNineState.tempFilterCriteria =
        (sampleTenNineState, true) ∧
      (handleApplyFilters sampleTenNineState).filterCriteria =
        sampleTenNineState.tempFilterCriteria ∧
      (handleApplyFilters sampleTenNineState).isFilterModalOpen = false ∧
      (handleApplyFilters sampleTenNineState).effects =
        sampleTenNineState.effects ++
          [Effect.getRecordsByListView "Lead".toList "lv1".toList "Name".toList "Phone".toList
            sampleTenNineState.tempFilterCriteria]) ∧
    (sampleNineTenState.tempFilterCriteria.bedroomMin = some "9".toList ∧
      sampleNineTenState.tempFilterCriteria.bedroomMax = some "10".toList ∧
      stringLtZero "9".toList = false ∧ stringLtZero "10".toList = false ∧
      digitsValue "9".toList ≤ digitsValue "10".toList ∧
      handleApplyFilters sampleNineTenState = showToast sampleNineTenState "Warning!".toList
        "Minimum bedroom count cannot be greater than maximum.".toList "warning".toList) ∧
    (handleApplyFilters sampleDraftState = showToast sampleDraftState "Warning!".toList
        "Minimum bedroom count cannot be greater than maximum.".toList "warning".toList ∧
      (validateFilterCriteria sampleState
        { emptyFilterCriteria with bedroomMin := some "-1".toList }) =
        (showToast sampleState "Warning!".toList
          "Bedroom count cannot be less than 0.".toList "warning".toList, false)) ∧
    (∀ (s : State) (c : FilterCriteria), (validateFilterCriteria s c).2 =
      !(jsLtZero c.bedroomMax || jsLtZero c.bedroomMin || jsGt c.bedroomMin c.bedroomMax)) ∧
    (∀ s : State, (validateFilterCriteria s s.tempFilterCriteria).2 = false →
      handleApplyFilters s = showToast s "Warning!".toList
          "Bedroom count cannot be less than 0.".toList "warning".toList ∨
        handleApplyFilters s = showToast s "Warning!".toList
          "Minimum bedroom count cannot be greater than maximum.".toList "warning".toList) ∧
    (∀ s : State, (validateFilterCriteria s s.tempFilterCriteria).2 = true →
      (handleApplyFilters s).filterCriteria = s.tempFilterCriteria) :=
  ⟨by decide, by decide, by decide, validateFilterCriteria_result,
    handleApplyFilters_rejected_toast, handleApplyFilters_accepted⟩

/-! ### CSV header check -/

theorem upper_mem (c : Char) (h : c.toNat ≥ 65 ∧ c.toNat ≤ 90) :
    c ∈ (List.range 26).map (fun k => Char.ofNat (65 + k)) := by
  rw [List.mem_map]
  refine ⟨c.toNat - 65, List.mem_range.mpr (by omega), ?_⟩
  have : 65 + (c.toNat - 65) = c.toNat := by omega
  rw [this, Char.ofNat_toNat]

theorem upper_facts : ∀ c ∈ (List.range 26).map (fun k => Char.ofNat (65 + k)),
    Char.toLower c ≠ ',' ∧ c ≠ ',' ∧ isJsWhiteSpace (Char.toLower c) = false ∧
      isJsWhiteSpace c = false := by
  decide

theorem toLower_eq_comma (c : Char) : Char.toLower c = ',' ↔ c = ',' := by
  by_cases h : c.toNat ≥ 65 ∧ c.toNat ≤ 90
  · obtain ⟨h1, h2, -, -⟩ := upper_facts c (upper_mem c h)
    exact ⟨fun h' => absurd h' h1, fun h' => absurd h' h2⟩
  · have : Char.toLower c = c := by
      unfold Char.toLower
      simp only [h, if_false]
    rw [this]

theorem isJsWhiteSpace_toLower (c : Char) :
    isJsWhiteSpace (Char.toLower c) = isJsWhiteSpace c := by
  by_cases h : c.toNat ≥ 65 ∧ c.toNat ≤ 90
  · obtain ⟨-, -, h3, h4⟩ := upper_facts c (upper_mem c h)
    rw [h3, h4]
  · have : Char.toLower c = c := by
      unfold Char.toLower
      simp only [h, if_false]
    rw [this]

theorem splitComma_toLowerCase (l : Str) :
    splitComma (toLowerCase l) = (splitComma l).map toLowerCase := by
  induction l with
  | nil => rfl
  | cons c cs ih =>
    unfold toLowerCase at ih ⊢
    simp only [List.map_cons, splitComma, toLower_eq_comma]
    split_ifs with h
    · rw [ih]; rfl
    · rw [ih]
      cases splitComma cs <;> rfl

theorem dropWhile_toLowerCase (l : Str) :
    (toLowerCase l).dropWhile isJsWhiteSpace = toLowerCase (l.dropWhile isJsWhiteSpace) := by
  induction l with
  | nil => rfl
  | cons c cs ih =>
    unfold toLowerCase at ih ⊢
    simp only [List.map_cons, List.dropWhile_cons, isJsWhiteSpace_toLower]
    split_ifs
    · exact ih
    · rfl

theorem trim_toLowerCase (l : Str) : trim (toLowerCase l) = toLowerCase (trim l) := by
  unfold trim
  rw [dropWhile_toLowerCase]
  have hr : ∀ x : Str, (toLowerCase x).reverse = toLowerCase x.reverse := by
    intro x; unfold toLowerCase; rw [List.map_reverse]
  rw [hr, dropWhile_toLowerCase, hr]

theorem csvHeaders_eq_spec (csvText : Str) : csvHeaders csvText = headerCellsSpec csvText := by
  unfold csvHeaders headerCellsSpec
  simp only [splitComma_toLowerCase, List.map_map]
  apply List.map_congr_left
  intro cell _
  exact trim_toLowerCase cell


/-- C10: the missing fields are the members of `lastname, email, phone`, in
that order, that are not among the cells of the first line (separated at
commas, trimmed, lower-cased).  When none is missing the `reader.onload`
callback forwards the raw text unchanged to `createLeadsFromCsv` and does
nothing else; otherwise it only raises the warning that lists the missing
fields, and makes no call.  The header `Email,Phone` gives exactly
`lastname`. -/
theorem csv_header_check (s : State) (csvText : Str) :
    requiredFields = ["lastname".toList, "email".toList, "phone".toList] ∧
    missingFields csvText =
      requiredFields.filter (fun field => decide (field ∉ headerCellsSpec csvText)) ∧
    (∀ field, field ∈ missingFields csvText ↔
      field ∈ requiredFields ∧ field ∉ headerCellsSpec csvText) ∧
    (missingFields csvText = [] →
      readerOnload s csvText =
        { s with effects := s.effects ++ [Effect.createLeadsFromCsv csvText] }) ∧
    (missingFields csvText ≠ [] →
      readerOnload s csvText = showToast s "Warning!".toList
        ("Missing required fields: ".toList ++ joinCommaSpace (missingFields csvText))
        "warning".toList) ∧
    ((readerOnload s csvText).effects = s.effects ++ [Effect.createLeadsFromCsv csvText] ↔
      missingFields csvText = []) ∧
    handleCsvFileChange s (some csvText) = readerOnload s csvText ∧
    missingFields sampleCsv = ["lastname".toList] := by
  have hfilter : missingFields csvText =
      requiredFields.filter (fun field => decide (field ∉ headerCellsSpec csvText)) := by
    unfold missingFields
    rw [csvHeaders_eq_spec]
    apply List.filter_congr
    intro field _
    simp
  have hempty : missingFields csvText = [] →
      readerOnload s csvText =
        { s with effects := s.effects ++ [Effect.createLeadsFromCsv csvText] } := by
    intro h
    unfold readerOnload
    rw [h]
    rfl
  have hmissing : missingFields csvText ≠ [] →
      readerOnload s csvText = showToast s "Warning!".toList
        ("Missing required fields: ".toList ++ joinCommaSpace (missingFields csvText))
        "warning".toList := by
    intro h
    unfold readerOnload
    rw [if_pos (List.length_pos.mpr h)]
  refine ⟨rfl, hfilter, ?_, hempty, hmissing, ?_, rfl, by decide⟩
  · intro field
    rw [hfilter, List.mem_filter]
    simp
  · constructor
    · intro h
      by_contra hne
      rw [hmissing hne] at h
      have h' := List.append_cancel_left h
      cases h'
    · intro h
      rw [hempty h]

/-- Witness of C10: a file with the header `Email,Phone` raises the warning
that lists `lastname` and makes no call. -/
theorem csv_header_check_witness :
    missingFields sampleCsv ≠ [] ∧
    readerOnload sampleState sampleCsv = showToast sampleState "Warning!".toList
      ("Missing required fields: ".toList ++ joinCommaSpace (missingFields sampleCsv))
      "warning".toList ∧
    (readerOnload sampleState sampleCsv).effects =
      [Effect.toast "Warning!".toList "Missing required fields: lastname".toList
        "warning".toList] :=
  ⟨by decide, (csv_header_check sampleState sampleCsv).2.2.2.2.1 (by decide), by decide⟩

/-! ### The pagination invariant -/

theorem SameRecords.refl (s : State) : SameRecords s s := ⟨rfl, rfl, rfl, rfl, rfl, rfl, rfl⟩

theorem fetchRecords_sameRecords (s t : State)
    (h : fetchRecords s = .ok t ∨ fetchRecords s = .error t) : SameRecords s t := by
  have := fetchRecords_frame s t h
  rw [this]
  exact SameRecords.refl s

theorem settle_fetchRecords_sameRecords (s : State) :
    SameRecords s (settle (fetchRecords s)) := by
  cases h : fetchRecords s with
  | ok t => exact fetchRecords_sameRecords s t (Or.inl h)
  | error t => exact fetchRecords_sameRecords s t (Or.inr h)

theorem SameRecords.trans {s t u : State} (h1 : SameRecords s t) (h2 : SameRecords t u) :
    SameRecords s u := by
  obtain ⟨a1, a2, a3, a4, a5, a6, a7⟩ := h1
  obtain ⟨b1, b2, b3, b4, b5, b6, b7⟩ := h2
  exact ⟨b1.trans a1, b2.trans a2, b3.trans a3, b4.trans a4, b5.trans a5, b6.trans a6,
    b7.trans a7⟩

theorem updateAppliedFilterCount_sameRecords (s : State) :
    SameRecords s (updateAppliedFilterCount s) :=
  SameRecords.refl s

theorem handleApplyFilters_sameRecords (s : State) : SameRecords s (handleApplyFilters s) := by
  unfold handleApplyFilters validateFilterCriteria
  split_ifs
  · exact SameRecords.refl s
  · exact SameRecords.refl s
  · exact settle_fetchRecords_sameRecords
      (updateAppliedFilterCount
        { s with filterCriteria := s.tempFilterCriteria, isFilterModalOpen := false })

theorem step_quiet (s : State) (e : Event) (h : e.isQuiet = true) :
    SameRecords s (step s e) := by
  cases e with
  | search value => simp [Event.isQuiet] at h
  | previous => simp [Event.isQuiet] at h
  | next => simp [Event.isQuiet] at h
  | pageChange p => simp [Event.isQuiet] at h
  | objectChange v => simp [Event.isQuiet] at h
  | recordSelection r c => simp [Event.isQuiet] at h
  | selectAll c => simp [Event.isQuiet] at h
  | saveResolved => simp [Event.isQuiet] at h
  | back => simp [Event.isQuiet] at h
  | fetchResolved fields data => simp [Event.isQuiet] at h
  | listViewChange v => exact settle_fetchRecords_sameRecords _
  | modalOpen => simp only [step, handleModalOpen]; split_ifs <;> exact SameRecords.refl s
  | closePopUp => exact SameRecords.refl s
  | inputChange n v => simp only [step, handleInputChange]; split_ifs <;> exact SameRecords.refl s
  | save => simp only [step, handleSave]; split_ifs <;> exact SameRecords.refl s
  | saveRejected m => exact SameRecords.refl s
  | filterModalOpen => exact SameRecords.refl s
  | filterModalClose => exact SameRecords.refl s
  | filterInputChange i => exact SameRecords.refl s
  | resetFilters => exact settle_fetchRecords_sameRecords _
  | applyFilters => exact handleApplyFilters_sameRecords s
  | fetchRejected m => exact SameRecords.refl s
  | listViewsResolved => exact SameRecords.refl s
  | listViewsRejected => exact SameRecords.refl s
  | configsResolved c => exact SameRecords.refl s
  | configsRejected => exact SameRecords.refl s
  | groupDetailsResolved result =>
    simp only [step, fetchGroupDetailsResolved]
    split
    · rename_i t h
      have hf := fetchRecords_sameRecords _ t (Or.inl h)
      exact ⟨hf.1, hf.2.1, hf.2.2.1, hf.2.2.2.1, hf.2.2.2.2.1, hf.2.2.2.2.2.1, hf.2.2.2.2.2.2⟩
    · rename_i t h
      have hf := fetchRecords_sameRecords _ t (Or.inr h)
      exact ⟨hf.1, hf.2.1, hf.2.2.1, hf.2.2.2.1, hf.2.2.2.2.1, hf.2.2.2.2.2.1, hf.2.2.2.2.2.2⟩
  | groupDetailsRejected => exact SameRecords.refl s
  | connected =>
    simp only [step, connectedCallback, fetchGroupDetails]
    split
    · exact SameRecords.refl s
    · split_ifs <;> exact SameRecords.refl s
  | csvFileChange file =>
    simp only [step, handleCsvFileChange]
    split
    · exact SameRecords.refl s
    · simp only [readerOnload]; split_ifs <;> exact SameRecords.refl s
  | csvResolved result =>
    simp only [step, processCsvStringResolved]
    split
    · rename_i t h
      have hf := fetchRecords_sameRecords _ t (Or.inl h)
      exact ⟨hf.1, hf.2.1, hf.2.2.1, hf.2.2.2.1, hf.2.2.2.2.1, hf.2.2.2.2.2.1, hf.2.2.2.2.2.2⟩
    · rename_i t h
      have hf := fetchRecords_sameRecords _ t (Or.inr h)
      exact ⟨hf.1, hf.2.1, hf.2.2.1, hf.2.2.2.1, hf.2.2.2.2.1, hf.2.2.2.2.2.1, hf.2.2.2.2.2.2⟩
  | csvRejected m => exact SameRecords.refl s

theorem totalPages_congr (s t : State) (h1 : t.filteredData = s.filteredData)
    (h2 : t.pageSize = s.pageSize) : totalPages t = totalPages s := by
  unfold totalPages totalItems
  rw [h1, h2]

theorem pageInv_of_same (s t : State) (h1 : t.filteredData = s.filteredData)
    (h2 : t.pageSize = s.pageSize) (h3 : t.currentPage = s.currentPage) (h : PageInv s) :
    PageInv t := by
  unfold PageInv
  rw [totalPages_congr s t h1 h2, h3]
  exact h

theorem pageInv_of_one (t : State) (h : t.currentPage = 1) : PageInv t := by
  unfold PageInv
  rw [h]
  exact ⟨le_refl _, le_max_left _ _⟩

theorem fetchRecordsResolved_currentPage (s : State) (fields : FieldConfig)
    (data : List RawRecord) : (fetchRecordsResolved s fields data).currentPage = 1 := by
  unfold fetchRecordsResolved
  cases h : reconciliationDue s with
  | true => rw [fetchRecordsThen_due s fields data h]; rfl
  | false => rw [fetchRecordsThen_not_due s fields data h]; rfl

theorem handleRecordSelection_paging (s : State) (r : Str) (c : Bool) :
    (handleRecordSelection s r c).filteredData = s.filteredData ∧
    (handleRecordSelection s r c).pageSize = s.pageSize ∧
    (handleRecordSelection s r c).currentPage = s.currentPage ∧
    (handleRecordSelection s r c).data = s.data ∧
    (handleRecordSelection s r c).searchTerm = s.searchTerm := by
  unfold handleRecordSelection
  split <;> exact ⟨rfl, rfl, rfl, rfl, rfl⟩

theorem step_pageInv (s : State) (e : Event)
    (hj : ∀ selectedPage, e = Event.pageChange selectedPage →
      1 ≤ selectedPage ∧ selectedPage ≤ totalPages s)
    (h : PageInv s) : PageInv (step s e) := by
  by_cases hq : e.isQuiet = true
  · obtain ⟨-, h1, -, h2, h3, -, -⟩ := step_quiet s e hq
    exact pageInv_of_same s _ h1 h3 h2 h
  · cases e with
    | search value => exact pageInv_of_one _ rfl
    | previous =>
      simp only [step, handlePrevious]
      split_ifs with hc
      · have : totalPages (updateShownData { s with currentPage := s.currentPage - 1 })
            = totalPages s := rfl
        unfold PageInv at h ⊢
        rw [this]
        show 1 ≤ s.currentPage - 1 ∧ s.currentPage - 1 ≤ max 1 (totalPages s)
        omega
      · exact h
    | next =>
      simp only [step, handleNext]
      split_ifs with hc
      · have : totalPages (updateShownData { s with currentPage := s.currentPage + 1 })
            = totalPages s := rfl
        unfold PageInv at h ⊢
        rw [this]
        show 1 ≤ s.currentPage + 1 ∧ s.currentPage + 1 ≤ max 1 (totalPages s)
        omega
      · exact h
    | pageChange p =>
      obtain ⟨hp1, hp2⟩ := hj p rfl
      simp only [step, handlePageChange]
      split_ifs with hc
      · have : totalPages (updateShownData { s with currentPage := p }) = totalPages s := rfl
        unfold PageInv
        rw [this]
        show 1 ≤ p ∧ p ≤ max 1 (totalPages s)
        omega
      · exact h
    | objectChange v => exact pageInv_of_one _ rfl
    | recordSelection r c =>
      obtain ⟨h1, h2, h3, -, -⟩ := handleRecordSelection_paging s r c
      exact pageInv_of_same s _ h1 h2 h3 h
    | selectAll c => exact pageInv_of_same s _ rfl rfl rfl h
    | saveResolved => exact pageInv_of_same s _ rfl rfl rfl h
    | back => exact pageInv_of_one _ rfl
    | fetchResolved fields data =>
      exact pageInv_of_one _ (fetchRecordsResolved_currentPage s fields data)
    | _ => exact absurd rfl hq

theorem offered_bounds (total current p : Int)
    (h : some p ∈ (pageNumbersOf total current 5).map PageEntry.number) :
    1 ≤ p ∧ p ≤ total := by
  unfold pageNumbersOf at h
  simp only [foldl_push] at h
  split_ifs at h <;>
    simp only [List.map_append, List.map_map, List.mem_append, List.mem_map, List.mem_singleton,
      List.nil_append, List.map_cons, List.map_nil, List.mem_cons, List.not_mem_nil, or_false,
      Function.comp, pageButton, ellipsisEntry, Option.some.injEq, mem_forRange,
      exists_eq_right, false_or, reduceCtorEq] at h <;> omega

theorem settle_fetchRecords_visiblePages (s : State) :
    (settle (fetchRecords s)).visiblePages = s.visiblePages := by
  cases h : fetchRecords s with
  | ok t =>
    have := fetchRecords_frame s t (Or.inl h)
    show t.visiblePages = _
    rw [this]
  | error t =>
    have := fetchRecords_frame s t (Or.inr h)
    show t.visiblePages = _
    rw [this]

theorem fetchRecords_visiblePages (s t : State)
    (h : fetchRecords s = .ok t ∨ fetchRecords s = .error t) :
    t.visiblePages = s.visiblePages := by
  have := fetchRecords_frame s t h
  rw [this]

theorem handleApplyFilters_visiblePages (s : State) :
    (handleApplyFilters s).visiblePages = s.visiblePages := by
  unfold handleApplyFilters validateFilterCriteria
  split_ifs
  · rfl
  · rfl
  · exact settle_fetchRecords_visiblePages
      (updateAppliedFilterCount
        { s with filterCriteria := s.tempFilterCriteria, isFilterModalOpen := false })

theorem step_visiblePages (s : State) (e : Event) :
    (step s e).visiblePages = s.visiblePages := by
  cases e with
  | search value => rfl
  | previous => simp only [step, handlePrevious]; split_ifs <;> rfl
  | next => simp only [step, handleNext]; split_ifs <;> rfl
  | pageChange p => simp only [step, handlePageChange]; split_ifs <;> rfl
  | objectChange v => rfl
  | listViewChange v => exact settle_fetchRecords_visiblePages _
  | recordSelection r c => simp only [step, handleRecordSelection]; split <;> rfl
  | selectAll c => rfl
  | modalOpen => simp only [step, handleModalOpen]; split_ifs <;> rfl
  | closePopUp => rfl
  | inputChange n v => simp only [step, handleInputChange]; split_ifs <;> rfl
  | save => simp only [step, handleSave]; split_ifs <;> rfl
  | saveResolved => rfl
  | saveRejected m => rfl
  | back => rfl
  | filterModalOpen => rfl
  | filterModalClose => rfl
  | filterInputChange i => rfl
  | resetFilters => exact settle_fetchRecords_visiblePages _
  | applyFilters => exact handleApplyFilters_visiblePages s
  | fetchResolved fields data =>
    simp only [step, fetchRecordsResolved]
    cases h : reconciliationDue s with
    | true => rw [fetchRecordsThen_due s fields data h]; rfl
    | false => rw [fetchRecordsThen_not_due s fields data h]; rfl
  | fetchRejected m => rfl
  | listViewsResolved => rfl
  | listViewsRejected => rfl
  | configsResolved c => rfl
  | configsRejected => rfl
  | groupDetailsResolved result =>
    simp only [step, fetchGroupDetailsResolved]
    split
    · rename_i t h
      have := fetchRecords_visiblePages _ t (Or.inl h)
      exact this
    · rename_i t h
      have := fetchRecords_visiblePages _ t (Or.inr h)
      exact this
  | groupDetailsRejected => rfl
  | connected =>
    simp only [step, connectedCallback, fetchGroupDetails]
    split
    · rfl
    · split_ifs <;> rfl
  | csvFileChange file =>
    simp only [step, handleCsvFileChange]
    split
    · rfl
    · simp only [readerOnload]; split_ifs <;> rfl
  | csvResolved result =>
    simp only [step, processCsvStringResolved]
    split
    · rename_i t h
      have := fetchRecords_visiblePages _ t (Or.inl h)
      exact this
    · rename_i t h
      have := fetchRecords_visiblePages _ t (Or.inr h)
      exact this
  | csvRejected m => rfl

theorem run_pageInv (s : State) (events : List Event) (hv : s.visiblePages = 5)
    (hj : jumpsOffered s events = true) (h : PageInv s) : PageInv (run s events) := by
  induction events generalizing s with
  | nil => exact h
  | cons e es ih =>
    simp only [jumpsOffered, Bool.and_eq_true] at hj
    obtain ⟨h1, h2⟩ := hj
    apply ih (step s e) ((step_visiblePages s e).trans hv) h2
    apply step_pageInv s e _ h
    intro p hp
    subst hp
    simp only [decide_eq_true_eq, pageNumbers, hv] at h1
    exact offered_bounds _ _ _ h1

/-- C11: in every state reached from the initial state by the events of the
component, where every jump goes to a page number that `pageNumbers` shows in
the state it is made in, `1 ≤ currentPage ≤ max(1, totalPages)`. -/
theorem pagination_invariant (broadcastGroupId : Option Str) (events : List Event)
    (hj : jumpsOffered (initialState broadcastGroupId) events = true) :
    1 ≤ (run (initialState broadcastGroupId) events).currentPage ∧
    (run (initialState broadcastGroupId) events).currentPage ≤
      max 1 (totalPages (run (initialState broadcastGroupId) events)) :=
  run_pageInv _ events rfl hj (pageInv_of_one _ rfl)

/-- Witness of C11: fifty-one records are loaded, which makes six pages.  The
jump to page 6 is taken and the page index there shows 1, 5 and 6; a further
`next` stays on page 6; the jump to page 5 and `previous` lead to page 4.  The
search for `a1` leaves two pages and goes back to page 1.  The whole sequence
ends on page 2 of 2. -/
theorem pagination_invariant_witness :
    jumpsOffered (initialState none) samplePagingTrace = true ∧
    totalPages (run (initialState none) sampleManyLoadTrace) = 6 ∧
    (run (initialState none) (sampleManyLoadTrace ++ [Event.pageChange 6])).currentPage = 6 ∧
    (pageNumbers (run (initialState none) (sampleManyLoadTrace ++ [Event.pageChange 6]))).map
      PageEntry.number = [some 1, none, some 5, some 6] ∧
    (run (initialState none)
      (sampleManyLoadTrace ++ [Event.pageChange 6, Event.next])).currentPage = 6 ∧
    (run (initialState none)
      (sampleManyLoadTrace ++ [Event.pageChange 6, Event.pageChange 5,
        Event.previous])).currentPage = 4 ∧
    (run (initialState none)
      (sampleManyLoadTrace ++ [Event.pageChange 6, Event.search "a1".toList])).currentPage = 1 ∧
    totalPages (run (initialState none)
      (sampleManyLoadTrace ++ [Event.pageChange 6, Event.search "a1".toList])) = 2 ∧
    (run (initialState none) samplePagingTrace).currentPage = 2 ∧
    totalPages (run (initialState none) samplePagingTrace) = 2 ∧
    1 ≤ (run (initialState none) samplePagingTrace).currentPage ∧
    (run (initialState none) samplePagingTrace).currentPage ≤
      max 1 (totalPages (run (initialState none) samplePagingTrace)) :=
  ⟨by decide, by decide, by decide, by decide, by decide, by decide, by decide, by decide,
    by decide, by decide, pagination_invariant none samplePagingTrace (by decide)⟩

/-! ### Jump to a page -/

/-- C12 (amended): `handlePageChange` sets `currentPage` to the target whenever
the target differs from `currentPage`, whether or not it lies within
`1..totalPages`, and rebuilds the visible page for it with `updateShownData`;
for a positive page size and a target above `totalPages` that page is empty.
Only a target equal to `currentPage` leaves the state unchanged. -/
theorem handlePageChange_sets_target (s : State) (selectedPage : Int) :
    (handlePageChange s selectedPage).currentPage = selectedPage ∧
    handlePageChange s selectedPage =
      (if selectedPage = s.currentPage then s
       else updateShownData { s with currentPage := selectedPage }) ∧
    (selectedPage ≠ s.currentPage →
      (handlePageChange s selectedPage).paginatedData =
        (jsSlice s.filteredData ((selectedPage - 1) * s.pageSize)
          (min ((selectedPage - 1) * s.pageSize + s.pageSize) (totalItems s))).map
          (markSelected s.selectedRecords)) ∧
    (selectedPage ≠ s.currentPage → totalPages s < selectedPage → 0 < s.pageSize →
      (handlePageChange s selectedPage).paginatedData = []) := by
  have heq : handlePageChange s selectedPage =
      (if selectedPage = s.currentPage then s
       else updateShownData { s with currentPage := selectedPage }) := by
    unfold handlePageChange
    by_cases h : selectedPage = s.currentPage
    · rw [if_neg (not_not.mpr h), if_pos h]
    · rw [if_pos h, if_neg h]
  refine ⟨?_, heq, ?_, ?_⟩
  · rw [heq]
    split_ifs with h
    · exact h.symm
    · rfl
  · intro h
    rw [heq, if_neg h]
    rfl
  · intro h hlt hp
    rw [heq, if_neg h]
    have htp : 0 ≤ totalPages s := by unfold totalPages; exact Int.natCast_nonneg _
    obtain ⟨c, hc⟩ : ∃ c : Nat, selectedPage = (c : Int) + 1 :=
      ⟨(selectedPage - 1).toNat, by omega⟩
    rw [updateShownData_page { s with currentPage := selectedPage } c hc]
    show List.map _ (List.take s.pageSize (List.drop (c * s.pageSize) s.filteredData)) = []
    have hk : (s.filteredData.length + s.pageSize - 1) / s.pageSize ≤ c := by
      have : totalPages s = (((s.filteredData.length + s.pageSize - 1) / s.pageSize : Nat) : Int) :=
        rfl
      omega
    have hle : s.filteredData.length ≤ c * s.pageSize :=
      le_trans (le_ceilDiv_mul _ _ hp) (Nat.mul_le_mul_right _ hk)
    rw [List.drop_of_length_le hle, List.take_nil, List.map_nil]

/-- Counterexample to C12: on page 2 of 3 of `sampleState`, which shows `r3` and
`r4`, the targets 7 and 0 lie outside `1..totalPages`, yet `handlePageChange`
sets `currentPage` to them and empties the visible page. -/
theorem handlePageChange_counterexample :
    totalPages (updateShownData sampleState) = 3 ∧
    (updateShownData sampleState).currentPage = 2 ∧
    ((updateShownData sampleState).paginatedData.map fun r => r.Id) =
      ["r3".toList, "r4".toList] ∧
    (handlePageChange (updateShownData sampleState) 7).currentPage = 7 ∧
    (handlePageChange (updateShownData sampleState) 7).paginatedData = [] ∧
    (handlePageChange (updateShownData sampleState) 0).currentPage = 0 ∧
    (handlePageChange (updateShownData sampleState) 0).paginatedData = [] := by
  decide

/-! ### Selection and fetch -/

theorem foldl_add_subset (p : Row → Prop) [DecidablePred p] (rows : List Row) (init : JsSet)
    (id : Str) (h : id ∈ init) :
    id ∈ rows.foldl (fun (set : JsSet) (record : Row) =>
        if p record then set.add record.Id else set) init :=
  (foldl_add_mem p rows init id).mpr (Or.inl h)

/-- C13 (amended): a successful fetch that does not run the initial
reconciliation ends with an empty selection set, whether or not the Ids
selected before occur among the fetched records; a fetch that runs the
reconciliation keeps every Id selected before. -/
theorem fetch_selection_cleared_unless_reconciling (s t : State) (fields : FieldConfig)
    (data : List RawRecord) (hs : reconciliationDue s = false)
    (ht : reconciliationDue t = true) :
    (fetchRecordsResolved s fields data).selectedRecords = [] ∧
    (∀ id ∈ t.selectedRecords, id ∈ (fetchRecordsResolved t fields data).selectedRecords) := by
  refine ⟨(fetchRecordsResolved_not_due s fields data hs).1, ?_⟩
  intro id hid
  unfold fetchRecordsResolved
  rw [fetchRecordsThen_due t fields data ht]
  exact foldl_add_subset (fun row : Row =>
    some row.phone ∈ t.groupMembers.map (fun member => member.Phone_Number__c)) _ _ id hid

/-- Witness of C13 (amended): with `r1` selected, a fetch of the same five
records empties the set; in edit mode a fetch keeps `r9` and adds `r2` and
`r4`. -/
theorem fetch_selection_witness :
    (reconciliationDue
        (run (initialState none) (sampleLoadTrace ++ [Event.recordSelection "r1".toList true]))
        = false ∧
      reconciliationDue { sampleEditState with selectedRecords := ["r9".toList] } = true) ∧
    (fetchRecordsResolved
      (run (initialState none) (sampleLoadTrace ++ [Event.recordSelection "r1".toList true]))
      sampleFields sampleRecords).selectedRecords = [] ∧
    (fetchRecordsResolved { sampleEditState with selectedRecords := ["r9".toList] }
      sampleFields sampleRecords).selectedRecords = ["r9".toList, "r2".toList, "r4".toList] :=
  ⟨⟨by decide, by decide⟩,
   (fetch_selection_cleared_unless_reconciling _
      { sampleEditState with selectedRecords := ["r9".toList] } sampleFields sampleRecords
      (by decide) (by decide)).1,
   by decide⟩

/-- Counterexample to C13: `r1` is selected, the filters are applied and the
fetch returns the same five records, `r1` among them; the selection set is
empty afterwards. -/
theorem fetch_selection_counterexample :
    (run (initialState none)
      (sampleLoadTrace ++ [Event.recordSelection "r1".toList true])).selectedRecords =
      ["r1".toList] ∧
    ((run (initialState none)
      (sampleLoadTrace ++ [Event.recordSelection "r1".toList true, Event.applyFilters,
        Event.fetchResolved sampleFields sampleRecords])).data.map fun r => r.Id) =
      ["r1".toList, "r2".toList, "r3".toList, "r4".toList, "r5".toList] ∧
    (run (initialState none)
      (sampleLoadTrace ++ [Event.recordSelection "r1".toList true, Event.applyFilters,
        Event.fetchResolved sampleFields sampleRecords])).selectedRecords = [] := by
  decide

/-! ### Opening the send dialog -/

theorem trim_nil : trim [] = [] := rfl

theorem phoneMissing_false_iff (s : State) (recordId : Str) :
    phoneMissing s recordId = false ↔
    ∃ record, s.data.find? (fun r => decide (r.Id = recordId)) = some record ∧
      trim record.phone ≠ [] := by
  unfold phoneMissing
  cases h : s.data.find? fun r => decide (r.Id = recordId) with
  | none => simp
  | some record =>
    simp only [Bool.or_eq_false_iff, List.isEmpty_eq_false, Option.some.injEq, exists_eq_left']
    constructor
    · exact fun h => h.2
    · intro h
      refine ⟨?_, h⟩
      intro hp
      rw [hp] at h
      exact h trim_nil

theorem any_phoneMissing_iff (s : State) :
    s.selectedRecords.any (phoneMissing s) = false ↔
    ∀ recordId ∈ s.selectedRecords, ∃ record,
      s.data.find? (fun r => decide (r.Id = recordId)) = some record ∧ trim record.phone ≠ [] := by
  rw [List.any_eq_false]
  constructor
  · intro h recordId hmem
    apply (phoneMissing_false_iff s recordId).mp
    cases hb : phoneMissing s recordId with
    | false => rfl
    | true => exact absurd hb (h recordId hmem)
  · intro h recordId hmem hb
    rw [(phoneMissing_false_iff s recordId).mpr (h recordId hmem)] at hb
    cases hb

theorem size_eq_zero_iff (set : JsSet) : set.size = 0 ↔ set = [] := by
  unfold JsSet.size
  exact List.length_eq_zero

theorem handleModalOpen_valid (s : State) (h : SendValid s) :
    handleModalOpen s = { s with isCreateBroadcastModalOpen := true } := by
  obtain ⟨h1, h2⟩ := h
  unfold handleModalOpen
  rw [if_neg (fun h0 => h1 ((size_eq_zero_iff _).mp h0)),
    if_neg (by rw [(any_phoneMissing_iff s).mpr h2]; decide)]

theorem handleModalOpen_invalid (s : State) (h : ¬ SendValid s) :
    handleModalOpen s = showToast s "Error".toList
        "Please select at least one record".toList "error".toList ∨
    handleModalOpen s = showToast s "Error".toList
        "One or more selected records have invalid or missing phone numbers".toList
        "error".toList := by
  unfold handleModalOpen
  by_cases hsize : s.selectedRecords.size = 0
  · rw [if_pos hsize]
    exact Or.inl rfl
  · rw [if_neg hsize]
    right
    have hany : s.selectedRecords.any (phoneMissing s) = true := by
      cases hb : s.selectedRecords.any (phoneMissing s) with
      | true => rfl
      | false =>
        exact absurd ⟨fun h0 => hsize ((size_eq_zero_iff _).mpr h0),
          (any_phoneMissing_iff s).mp hb⟩ h
    rw [if_pos hany]

theorem append_singleton_ne_self {α : Type} (l : List α) (x : α) : l ++ [x] ≠ l := by
  intro h
  have := congrArg List.length h
  simp at this

/-- C14: `handleModalOpen` opens the dialog, and changes nothing else, exactly
when the selection set is not empty and every selected Id belongs to a row of
`data` whose phone is not blank after trimming; otherwise it only raises an
error toast: the modal flag, the selection set, the record arrays and the page
are unchanged. -/
theorem handleModalOpen_validation (s : State) :
    (handleModalOpen s = { s with isCreateBroadcastModalOpen := true } ↔ SendValid s) ∧
    (SendValid s → (handleModalOpen s).isCreateBroadcastModalOpen = true) ∧
    (¬ SendValid s →
      (handleModalOpen s = showToast s "Error".toList
          "Please select at least one record".toList "error".toList ∨
        handleModalOpen s = showToast s "Error".toList
          "One or more selected records have invalid or missing phone numbers".toList
          "error".toList) ∧
      (handleModalOpen s).isCreateBroadcastModalOpen = s.isCreateBroadcastModalOpen ∧
      (handleModalOpen s).selectedRecords = s.selectedRecords ∧
      (handleModalOpen s).data = s.data ∧
      (handleModalOpen s).filteredData = s.filteredData ∧
      (handleModalOpen s).paginatedData = s.paginatedData ∧
      (handleModalOpen s).currentPage = s.currentPage) := by
  refine ⟨⟨?_, handleModalOpen_valid s⟩, ?_, ?_⟩
  · intro h
    by_contra hv
    have heff : (handleModalOpen s).effects = s.effects := by rw [h]
    rcases handleModalOpen_invalid s hv with h' | h' <;> rw [h'] at heff <;>
      exact append_singleton_ne_self _ _ heff
  · intro hv
    rw [handleModalOpen_valid s hv]
  · intro hv
    refine ⟨handleModalOpen_invalid s hv, ?_⟩
    rcases handleModalOpen_invalid s hv with h' | h' <;> rw [h'] <;>
      exact ⟨rfl, rfl, rfl, rfl, rfl, rfl⟩

/-- Witness of C14: with `r1` selected the dialog opens; with `r5`, which has no
phone, selected it stays closed and the second error is raised. -/
theorem handleModalOpen_validation_witness :
    SendValid (run (initialState none)
      (sampleLoadTrace ++ [Event.recordSelection "r1".toList true])) ∧
    (handleModalOpen (run (initialState none)
      (sampleLoadTrace ++ [Event.recordSelection "r1".toList true]))).isCreateBroadcastModalOpen
      = true ∧
    ¬ SendValid (run (initialState none)
      (sampleLoadTrace ++ [Event.recordSelection "r5".toList true])) ∧
    (handleModalOpen (run (initialState none)
      (sampleLoadTrace ++ [Event.recordSelection "r5".toList true]))).isCreateBroadcastModalOpen
      = false :=
  have h1 : SendValid (run (initialState none)
      (sampleLoadTrace ++ [Event.recordSelection "r1".toList true])) :=
    (handleModalOpen_validation _).1.mp (by decide)
  have h2 : ¬ SendValid (run (initialState none)
      (sampleLoadTrace ++ [Event.recordSelection "r5".toList true])) :=
    fun h => absurd ((handleModalOpen_validation _).1.mpr h) (by decide)
  ⟨h1, (handleModalOpen_validation _).2.1 h1, h2, by decide⟩

/-! ### Select all and the derived states -/

theorem foldl_add_all_mem (rows : List Row) (init : JsSet) (id : Str) :
    id ∈ rows.foldl (fun (set : JsSet) (record : Row) => set.add record.Id) init ↔
      id ∈ init ∨ ∃ row ∈ rows, row.Id = id := by
  induction rows generalizing init with
  | nil => simp
  | cons r rs ih =>
    rw [List.foldl_cons, ih]
    simp only [mem_add, List.mem_cons, exists_eq_or_imp]
    constructor
    · rintro ((h | h) | h)
      · exact Or.inl h
      · exact Or.inr (Or.inl h.symm)
      · exact Or.inr (Or.inr h)
    · rintro (h | h | h)
      · exact Or.inl (Or.inl h)
      · exact Or.inl (Or.inr h.symm)
      · exact Or.inr h

theorem foldl_delete_all_mem (rows : List Row) (init : JsSet) (id : Str) :
    id ∈ rows.foldl (fun (set : JsSet) (record : Row) => set.delete record.Id) init ↔
      id ∈ init ∧ ∀ row ∈ rows, row.Id ≠ id := by
  induction rows generalizing init with
  | nil => simp
  | cons r rs ih =>
    rw [List.foldl_cons, ih]
    simp only [mem_delete, List.mem_cons, forall_eq_or_imp]
    constructor
    · rintro ⟨⟨h1, h2⟩, h3⟩
      exact ⟨h1, fun h => h2 h.symm, h3⟩
    · rintro ⟨h1, h2, h3⟩
      exact ⟨⟨h1, fun h => h2 h.symm⟩, h3⟩

theorem handleSelectAll_selectedRecords (s : State) (isChecked : Bool) :
    (handleSelectAll s isChecked).selectedRecords =
      if isChecked = true then
        s.paginatedData.foldl (fun (set : JsSet) (record : Row) => set.add record.Id)
          s.selectedRecords
      else
        s.paginatedData.foldl (fun (set : JsSet) (record : Row) => set.delete record.Id)
          s.selectedRecords := by
  cases isChecked <;> rfl

theorem handleSelectAll_mem (s : State) (isChecked : Bool) (id : Str) :
    id ∈ (handleSelectAll s isChecked).selectedRecords ↔
      (isChecked = true ∧ (id ∈ s.selectedRecords ∨ ∃ row ∈ s.paginatedData, row.Id = id)) ∨
      (isChecked = false ∧ id ∈ s.selectedRecords ∧ ∀ row ∈ s.paginatedData, row.Id ≠ id) := by
  rw [handleSelectAll_selectedRecords]
  cases isChecked
  · simp [foldl_delete_all_mem]
  · simp [foldl_add_all_mem]

/-- C15: `handleSelectAll` changes the membership in the selection set only of
the Ids of the rows of the visible page: an Id of no visible row is in the set
after exactly when it was before; when checked, the Id of every visible row is
in the set after, when unchecked none is; and every visible row gets
`isSelected` equal to the checkbox value. -/
theorem handleSelectAll_page_scoped (s : State) (isChecked : Bool) :
    (∀ id, (∀ row ∈ s.paginatedData, row.Id ≠ id) →
      (id ∈ (handleSelectAll s isChecked).selectedRecords ↔ id ∈ s.selectedRecords)) ∧
    (isChecked = true →
      ∀ row ∈ s.paginatedData, row.Id ∈ (handleSelectAll s isChecked).selectedRecords) ∧
    (isChecked = false →
      ∀ row ∈ s.paginatedData, row.Id ∉ (handleSelectAll s isChecked).selectedRecords) ∧
    (handleSelectAll s isChecked).paginatedData =
      s.paginatedData.map (fun record => { record with isSelected := isChecked }) := by
  refine ⟨?_, ?_, ?_, rfl⟩
  · intro id hid
    rw [handleSelectAll_mem]
    cases isChecked
    · simp only [Bool.false_eq_true, false_and, false_or, true_and]
      exact ⟨fun h => h.1, fun h => ⟨h, hid⟩⟩
    · simp only [true_and, Bool.true_eq_false, false_and, or_false]
      constructor
      · rintro (h | ⟨row, hrow, h⟩)
        · exact h
        · exact absurd h (hid row hrow)
      · exact Or.inl
  · intro hc row hrow
    rw [handleSelectAll_mem]
    exact Or.inl ⟨hc, Or.inr ⟨row, hrow, rfl⟩⟩
  · intro hc row hrow
    rw [handleSelectAll_mem]
    rintro (⟨h, -⟩ | ⟨-, -, h⟩)
    · rw [hc] at h; cases h
    · exact h row hrow rfl

theorem isAllSelected_iff (s : State) :
    isAllSelected s = true ↔
      s.paginatedData ≠ [] ∧ ∀ row ∈ s.paginatedData, row.Id ∈ s.selectedRecords := by
  unfold isAllSelected
  simp only [Bool.and_eq_true, decide_eq_true_eq, List.all_eq_true, has_iff, gt_iff_lt,
    List.length_pos]

theorem isIndeterminate_iff (s : State) :
    isIndeterminate s = true ↔
      (∃ row ∈ s.paginatedData, row.Id ∈ s.selectedRecords) ∧
      ¬ ∀ row ∈ s.paginatedData, row.Id ∈ s.selectedRecords := by
  unfold isIndeterminate
  rw [Bool.and_eq_true, Bool.not_eq_true', ← Bool.not_eq_true, isAllSelected_iff,
    List.any_eq_true]
  simp only [has_iff]
  constructor
  · rintro ⟨⟨row, hrow, hin⟩, hn⟩
    refine ⟨⟨row, hrow, hin⟩, fun hall => hn ⟨?_, hall⟩⟩
    intro he
    rw [he] at hrow
    cases hrow
  · rintro ⟨hex, hn⟩
    exact ⟨hex, fun h => hn h.2⟩

/-- Witness of C15 on `samplePage`, which shows `r3` and `r4` with `r1` and `r3`
selected: checking the box adds `r4`, unchecking it removes `r3`, and `r1`,
which is on another page, stays selected either way. -/
theorem handleSelectAll_page_scoped_witness :
    (∀ row ∈ samplePage.paginatedData, row.Id ≠ "r1".toList) ∧
    ("r1".toList ∈ (handleSelectAll samplePage false).selectedRecords ↔
      "r1".toList ∈ samplePage.selectedRecords) ∧
    (handleSelectAll samplePage true).selectedRecords =
      ["r1".toList, "r3".toList, "r4".toList] ∧
    (handleSelectAll samplePage false).selectedRecords = ["r1".toList] :=
  ⟨by decide, (handleSelectAll_page_scoped samplePage false).1 "r1".toList (by decide),
   by decide, by decide⟩

/-- C16: `isAllSelected` is true exactly when the visible page is not empty and
the Id of every visible row is in the selection set; `isIndeterminate` is true
exactly when the Id of some visible row is in the set and not that of every
one; the two are never both true; after `handleSelectAll` with the box checked
on a non-empty page `isAllSelected` is true, and after `handleSelectAll` with
the box unchecked both are false. -/
theorem display_states (s : State) :
    (isAllSelected s = true ↔
      s.paginatedData ≠ [] ∧ ∀ row ∈ s.paginatedData, row.Id ∈ s.selectedRecords) ∧
    (isIndeterminate s = true ↔
      (∃ row ∈ s.paginatedData, row.Id ∈ s.selectedRecords) ∧
      ¬ ∀ row ∈ s.paginatedData, row.Id ∈ s.selectedRecords) ∧
    ¬ (isAllSelected s = true ∧ isIndeterminate s = true) ∧
    (s.paginatedData ≠ [] → isAllSelected (handleSelectAll s true) = true) ∧
    isAllSelected (handleSelectAll s false) = false ∧
    isIndeterminate (handleSelectAll s false) = false := by
  have hpage : ∀ b, ∀ row ∈ (handleSelectAll s b).paginatedData,
      ∃ row' ∈ s.paginatedData, row.Id = row'.Id := by
    intro b row hrow
    change row ∈ List.map _ s.paginatedData at hrow
    obtain ⟨row', h1, rfl⟩ := List.mem_map.mp hrow
    exact ⟨row', h1, rfl⟩
  have hnone : ∀ row ∈ (handleSelectAll s false).paginatedData,
      row.Id ∉ (handleSelectAll s false).selectedRecords := by
    intro row hrow
    obtain ⟨row', h1, h2⟩ := hpage false row hrow
    rw [h2, handleSelectAll_mem]
    rintro (⟨h, -⟩ | ⟨-, -, h⟩)
    · cases h
    · exact h row' h1 rfl
  refine ⟨isAllSelected_iff s, isIndeterminate_iff s, ?_, ?_, ?_, ?_⟩
  · rintro ⟨h1, h2⟩
    exact ((isIndeterminate_iff s).mp h2).2 ((isAllSelected_iff s).mp h1).2
  · intro hne
    rw [isAllSelected_iff]
    constructor
    · show List.map _ s.paginatedData ≠ []
      simpa using hne
    · intro row hrow
      obtain ⟨row', h1, h2⟩ := hpage true row hrow
      rw [h2, handleSelectAll_mem]
      exact Or.inl ⟨rfl, Or.inr ⟨row', h1, rfl⟩⟩
  · rw [← Bool.not_eq_true, isAllSelected_iff]
    rintro ⟨hne, hall⟩
    obtain ⟨row, hrow⟩ := List.exists_mem_of_ne_nil _ hne
    exact hnone row hrow (hall row hrow)
  · rw [← Bool.not_eq_true, isIndeterminate_iff]
    rintro ⟨⟨row, hrow, hin⟩, -⟩
    exact hnone row hrow hin


/-- Witness of C16 on `samplePage`: one of its two rows is selected, so it is
indeterminate and not all selected; after select-all it is all selected. -/
theorem display_states_witness :
    samplePage.paginatedData ≠ [] ∧
    isIndeterminate samplePage = true ∧ isAllSelected samplePage = false ∧
    isAllSelected (handleSelectAll samplePage true) = true ∧
    isIndeterminate (handleSelectAll samplePage true) = false :=
  ⟨by decide, by decide, by decide, (display_states samplePage).2.2.2.1 (by decide), by decide⟩

/-! ### Per-row toggle -/

theorem find?_isSome_iff (page : List Row) (r : Str) :
    (∃ row, page.find? (fun row => decide (row.Id = r)) = some row) ↔
      ∃ row ∈ page, row.Id = r := by
  constructor
  · rintro ⟨row, h⟩
    exact ⟨row, List.mem_of_find?_eq_some h, by simpa using List.find?_some h⟩
  · rintro ⟨row, hrow, hid⟩
    cases h : page.find? (fun row => decide (row.Id = r)) with
    | some x => exact ⟨x, rfl⟩
    | none =>
      rw [List.find?_eq_none] at h
      exact absurd (by simpa using hid) (h row hrow)

theorem find?_updateFirst (page : List Row) (r : Str) (b : Bool)
    (h : ∃ row ∈ page, row.Id = r) :
    ((updateFirst (fun row => decide (row.Id = r))
        (fun record => { record with isSelected := b }) page).find?
      (fun row => decide (row.Id = r))).map (fun row => row.isSelected) = some b := by
  induction page with
  | nil => obtain ⟨row, hrow, -⟩ := h; cases hrow
  | cons x xs ih =>
    unfold updateFirst
    by_cases hx : x.Id = r
    · simp [hx]
    · have hx' : decide (x.Id = r) = false := by simpa using hx
      rw [hx']
      simp only [Bool.false_eq_true, if_false]
      rw [List.find?_cons_of_neg _ (by simpa using hx)]
      apply ih
      obtain ⟨row, hrow, hid⟩ := h
      rcases List.mem_cons.mp hrow with rfl | hmem
      · exact absurd hid hx
      · exact ⟨row, hmem, hid⟩

theorem updateFirst_map_fields (page : List Row) (r : Str) (b : Bool) :
    (updateFirst (fun row => decide (row.Id = r))
        (fun record => { record with isSelected := b }) page).map
      (fun row => (row.index, row.Id, row.name, row.phone)) =
    page.map (fun row => (row.index, row.Id, row.name, row.phone)) := by
  induction page with
  | nil => rfl
  | cons x xs ih =>
    unfold updateFirst
    split_ifs
    · rfl
    · rw [List.map_cons, List.map_cons, ih]

theorem updateFirst_other_rows (page : List Row) (r : Str) (b : Bool) (row : Row)
    (hid : row.Id ≠ r) :
    row ∈ updateFirst (fun row => decide (row.Id = r))
        (fun record => { record with isSelected := b }) page ↔ row ∈ page := by
  induction page with
  | nil => rfl
  | cons x xs ih =>
    unfold updateFirst
    by_cases hx : x.Id = r
    · simp only [hx, decide_True, if_true, List.mem_cons]
      constructor
      · rintro (h | h)
        · rw [h] at hid; exact absurd rfl hid
        · exact Or.inr h
      · rintro (h | h)
        · rw [h] at hid; exact absurd hx hid
        · exact Or.inr h
    · have hx' : decide (x.Id = r) = false := by simpa using hx
      rw [hx']
      simp only [Bool.false_eq_true, if_false, List.mem_cons, ih]

/-- C17: when the Id is that of a visible row, `handleRecordSelection` makes
the selection set the old set with the Id added (box checked) or removed (box
unchecked), so the membership of every other Id is unchanged; the visible row
found for the Id has `isSelected` equal to the checkbox value, and the other
rows, and the other fields of every row, are as before.  When the Id is that
of no visible row the state is unchanged. -/
theorem handleRecordSelection_toggle (s : State) (recordId : Str) (checked : Bool) :
    ((∃ row ∈ s.paginatedData, row.Id = recordId) →
      (handleRecordSelection s recordId checked).selectedRecords =
        (if checked = true then s.selectedRecords.add recordId
         else s.selectedRecords.delete recordId) ∧
      (∀ id, id ∈ (handleRecordSelection s recordId checked).selectedRecords ↔
        (checked = true ∧ (id ∈ s.selectedRecords ∨ id = recordId)) ∨
        (checked = false ∧ id ∈ s.selectedRecords ∧ id ≠ recordId)) ∧
      (∀ id, id ≠ recordId →
        (id ∈ (handleRecordSelection s recordId checked).selectedRecords ↔
          id ∈ s.selectedRecords)) ∧
      (((handleRecordSelection s recordId checked).paginatedData.find?
          (fun row => decide (row.Id = recordId))).map (fun row => row.isSelected)
        = some checked) ∧
      ((handleRecordSelection s recordId checked).paginatedData.map
          (fun row => (row.index, row.Id, row.name, row.phone)) =
        s.paginatedData.map (fun row => (row.index, row.Id, row.name, row.phone))) ∧
      (∀ row, row.Id ≠ recordId →
        (row ∈ (handleRecordSelection s recordId checked).paginatedData ↔
          row ∈ s.paginatedData))) ∧
    ((∀ row ∈ s.paginatedData, row.Id ≠ recordId) →
      handleRecordSelection s recordId checked = s) := by
  constructor
  · intro hex
    obtain ⟨found, hfound⟩ := (find?_isSome_iff s.paginatedData recordId).mpr hex
    have hsel : (handleRecordSelection s recordId checked).selectedRecords =
        (if checked = true then s.selectedRecords.add recordId
         else s.selectedRecords.delete recordId) := by
      unfold handleRecordSelection
      rw [hfound]
    have hpage : (handleRecordSelection s recordId checked).paginatedData =
        updateFirst (fun row => decide (row.Id = recordId))
          (fun record => { record with isSelected := checked }) s.paginatedData := by
      unfold handleRecordSelection
      rw [hfound]
    have hmem : ∀ id, id ∈ (handleRecordSelection s recordId checked).selectedRecords ↔
        (checked = true ∧ (id ∈ s.selectedRecords ∨ id = recordId)) ∨
        (checked = false ∧ id ∈ s.selectedRecords ∧ id ≠ recordId) := by
      intro id
      rw [hsel]
      cases checked
      · simp [mem_delete]
      · simp [mem_add]
    refine ⟨hsel, hmem, ?_, ?_, ?_, ?_⟩
    · intro id hid
      rw [hmem]
      cases checked
      · simp [hid]
      · simp [hid]
    · rw [hpage]
      exact find?_updateFirst s.paginatedData recordId checked hex
    · rw [hpage]
      exact updateFirst_map_fields s.paginatedData recordId checked
    · intro row hid
      rw [hpage]
      exact updateFirst_other_rows s.paginatedData recordId checked row hid
  · intro hnone
    have : s.paginatedData.find? (fun row => decide (row.Id = recordId)) = none := by
      rw [List.find?_eq_none]
      intro row hrow
      simpa using hnone row hrow
    unfold handleRecordSelection
    rw [this]


/-- Witness of C17 on `samplePage`: `r4` is toggled on and `r3` off; `r1`, which
is on another page, stays selected. -/
theorem handleRecordSelection_toggle_witness :
    (∃ row ∈ samplePage.paginatedData, row.Id = "r4".toList) ∧
    (handleRecordSelection samplePage "r4".toList true).selectedRecords =
      (if true = true then samplePage.selectedRecords.add "r4".toList
       else samplePage.selectedRecords.delete "r4".toList) ∧
    (handleRecordSelection samplePage "r4".toList true).selectedRecords =
      ["r1".toList, "r3".toList, "r4".toList] ∧
    (handleRecordSelection samplePage "r3".toList false).selectedRecords = ["r1".toList] ∧
    ((handleRecordSelection samplePage "r3".toList false).paginatedData.map
        fun row => (row.Id, row.isSelected)) = [("r3".toList, false), ("r4".toList, false)] ∧
    handleRecordSelection samplePage "r1".toList true = samplePage :=
  ⟨by decide,
   ((handleRecordSelection_toggle samplePage "r4".toList true).1 (by decide)).1,
   by decide, by decide, by decide,
   (handleRecordSelection_toggle samplePage "r1".toList true).2 (by decide)⟩

/-! ### Applied-filter count -/

theorem countsString_eq (v : Str) : countsString v = decide (trim v ≠ []) := by
  unfold countsString
  cases v with
  | nil => rfl
  | cons c cs =>
    cases h : trim (c :: cs) <;> simp [h]

theorem countsArray_eq (value : List Str) :
    (if countsArray value = true then 1 else 0) = (if value ≠ [] then 1 else 0) := by
  cases value <;> simp [countsArray]

theorem count_strings (l : List Str) :
    ((l.map FilterValue.string).filter countsValue).length =
      (l.filter fun v => decide (trim v ≠ [])).length := by
  rw [List.filter_map, List.length_map]
  congr 1
  apply List.filter_congr
  intro v _
  exact countsString_eq v

theorem count_array (value : List Str) :
    ([FilterValue.array value].filter countsValue).length = if value ≠ [] then 1 else 0 := by
  rw [← countsArray_eq]
  cases h : countsArray value <;> simp [List.filter_cons, countsValue, h]

theorem objectValues_count (c : FilterCriteria) :
    ((objectValues c).filter countsValue).length = nonDefaultFieldCount c := by
  have h : objectValues c =
      [c.community, c.area, c.building, c.priceRange].map FilterValue.string
        ++ [FilterValue.array c.propertyTypes]
        ++ c.bedroomMin.toList.map FilterValue.string
        ++ c.bedroomMax.toList.map FilterValue.string := rfl
  rw [h]
  unfold nonDefaultFieldCount
  simp only [List.filter_append, List.length_append, count_strings, count_array]
  omega

theorem handleApplyFilters_count (s : State)
    (h : (validateFilterCriteria s s.tempFilterCriteria).2 = true) :
    (handleApplyFilters s).appliedFilterCount = nonDefaultFieldCount s.tempFilterCriteria ∧
    (handleApplyFilters s).filterCriteria = s.tempFilterCriteria := by
  rw [handleApplyFilters_valid s h]
  obtain ⟨h1, -, h3⟩ := settle_fetchRecords_filter (updateAppliedFilterCount
    { s with filterCriteria := s.tempFilterCriteria, isFilterModalOpen := false })
  rw [h1, h3]
  exact ⟨objectValues_count s.tempFilterCriteria, rfl⟩

theorem handleResetFilters_fields (s : State) :
    (handleResetFilters s).filterCriteria = emptyFilterCriteria ∧
    (handleResetFilters s).tempFilterCriteria = emptyFilterCriteria ∧
    (handleResetFilters s).appliedFilterCount = 0 :=
  settle_fetchRecords_filter
    { s with filterCriteria := emptyFilterCriteria, tempFilterCriteria := emptyFilterCriteria,
             appliedFilterCount := 0 }

/-- C18: when the draft passes `validateFilterCriteria`, `handleApplyFilters`
makes the draft the applied criteria and sets `appliedFilterCount` to the
number of its string fields, the bedroom strings that are present included,
that are not blank after trimming, plus one when `propertyTypes` is not empty;
and `handleResetFilters` sets both criteria to the empty structure and the
count to 0.  On the draft `community: 'Marina', bedroomMin: '1',
bedroomMax: '3'`, typed into the open dialog, the count becomes 3; a bedroom
input that was cleared holds the empty string and is not counted. -/
theorem applied_filter_count :
    (∀ s : State, (validateFilterCriteria s s.tempFilterCriteria).2 = true →
      (handleApplyFilters s).appliedFilterCount =
        nonDefaultFieldCount (handleApplyFilters s).filterCriteria ∧
      (handleApplyFilters s).filterCriteria = s.tempFilterCriteria) ∧
    (∀ s : State, (handleResetFilters s).filterCriteria = emptyFilterCriteria ∧
      (handleResetFilters s).tempFilterCriteria = emptyFilterCriteria ∧
      (handleResetFilters s).appliedFilterCount = 0) ∧
    ((validateFilterCriteria sampleBedroomState sampleBedroomState.tempFilterCriteria).2 = true ∧
      (handleApplyFilters sampleBedroomState).filterCriteria =
        sampleBedroomState.tempFilterCriteria ∧
      (handleApplyFilters sampleBedroomState).isFilterModalOpen = false ∧
      (handleApplyFilters sampleBedroomState).appliedFilterCount = 3) ∧
    (run (initialState none)
        (sampleLoadTrace ++ [Event.filterModalOpen,
          Event.filterInputChange (FilterInput.community "Marina".toList),
          Event.filterInputChange (FilterInput.bedroomMin "1".toList),
          Event.filterInputChange (FilterInput.bedroomMax "3".toList),
          Event.applyFilters])).appliedFilterCount = 3 ∧
    (run (initialState none)
        (sampleLoadTrace ++ [Event.filterModalOpen,
          Event.filterInputChange (FilterInput.community "Marina".toList),
          Event.filterInputChange (FilterInput.propertyTypes ["Villa".toList]),
          Event.filterInputChange (FilterInput.area "  ".toList),
          Event.filterInputChange (FilterInput.bedroomMin "1".toList),
          Event.filterInputChange (FilterInput.bedroomMin []),
          Event.applyFilters])).appliedFilterCount = 2 ∧
    (run (initialState none)
        (sampleLoadTrace ++ [Event.filterModalOpen,
          Event.filterInputChange (FilterInput.community "Marina".toList),
          Event.applyFilters, Event.resetFilters])).appliedFilterCount = 0 := by
  refine ⟨fun s h => ?_, handleResetFilters_fields, by decide, by decide, by decide, by decide⟩
  obtain ⟨h1, h2⟩ := handleApplyFilters_count s h
  rw [h2]
  exact ⟨h1, rfl⟩

/-! ### Page reset and the filtered view -/

theorem updateShownData_first_page (t : State) (h : t.currentPage = 1) :
    (updateShownData t).paginatedData =
      (t.filteredData.take t.pageSize).map (markSelected t.selectedRecords) := by
  rw [updateShownData_page t 0 (by rw [h]; rfl)]
  simp

theorem fetchRecordsResolved_first_page (s : State) (fields : FieldConfig)
    (data : List RawRecord) :
    (fetchRecordsResolved s fields data).paginatedData =
      ((fetchRecordsResolved s fields data).filteredData.take
        (fetchRecordsResolved s fields data).pageSize).map
        (markSelected (fetchRecordsResolved s fields data).selectedRecords) := by
  unfold fetchRecordsResolved
  cases h : reconciliationDue s with
  | true =>
    rw [fetchRecordsThen_due s fields data h]
    exact updateShownData_first_page _ rfl
  | false =>
    rw [fetchRecordsThen_not_due s fields data h]
    exact updateShownData_first_page _ rfl

/-- C19: after `handleSearch`, after `handleObjectChange` and after a successful
fetch, whatever `currentPage` was, `currentPage` is 1 and the visible page is
the first `pageSize` rows of the new filtered view, each copied with
`isSelected` set from the selection set. -/
theorem record_set_change_resets_page (s : State) (value : Str) (fields : FieldConfig)
    (data : List RawRecord) :
    ((handleSearch s value).currentPage = 1 ∧
      (handleSearch s value).paginatedData =
        ((handleSearch s value).filteredData.take (handleSearch s value).pageSize).map
          (markSelected (handleSearch s value).selectedRecords)) ∧
    ((handleObjectChange s value).currentPage = 1 ∧
      (handleObjectChange s value).paginatedData =
        ((handleObjectChange s value).filteredData.take (handleObjectChange s value).pageSize).map
          (markSelected (handleObjectChange s value).selectedRecords)) ∧
    ((fetchRecordsResolved s fields data).currentPage = 1 ∧
      (fetchRecordsResolved s fields data).paginatedData =
        ((fetchRecordsResolved s fields data).filteredData.take
          (fetchRecordsResolved s fields data).pageSize).map
          (markSelected (fetchRecordsResolved s fields data).selectedRecords)) :=
  ⟨⟨rfl, updateShownData_first_page _ rfl⟩,
   ⟨rfl, by show [] = List.map _ (List.take _ []); rw [List.take_nil, List.map_nil]⟩,
   ⟨fetchRecordsResolved_currentPage s fields data, fetchRecordsResolved_first_page s fields data⟩⟩

theorem upper_toLower_idem : ∀ c ∈ (List.range 26).map (fun k => Char.ofNat (65 + k)),
    Char.toLower (Char.toLower c) = Char.toLower c := by
  decide

theorem toLower_idem (c : Char) : Char.toLower (Char.toLower c) = Char.toLower c := by
  by_cases h : c.toNat ≥ 65 ∧ c.toNat ≤ 90
  · exact upper_toLower_idem c (upper_mem c h)
  · have : Char.toLower c = c := by
      unfold Char.toLower
      simp only [h, if_false]
    rw [this, this]

theorem toLowerCase_idem (v : Str) : toLowerCase (toLowerCase v) = toLowerCase v := by
  unfold toLowerCase
  rw [List.map_map]
  apply List.map_congr_left
  intro c _
  exact toLower_idem c

theorem handleSearch_view (s : State) (value : Str) :
    (handleSearch s value).filteredData =
      freeTextFilter (handleSearch s value).data (handleSearch s value).searchTerm := by
  rw [handleSearch_filteredData_eq]
  show _ = freeTextFilter s.data (toLowerCase value)
  unfold freeTextFilter
  rw [toLowerCase_idem]
  apply List.filter_congr
  intro row _
  rw [Bool.eq_iff_iff]
  simp only [Bool.or_eq_true, includes_iff, List.isEmpty_iff, decide_eq_true_eq]

theorem fetchRecordsResolved_view (s : State) (fields : FieldConfig) (data : List RawRecord) :
    (fetchRecordsResolved s fields data).filteredData = (fetchRecordsResolved s fields data).data ∧
    (fetchRecordsResolved s fields data).searchTerm = s.searchTerm := by
  unfold fetchRecordsResolved
  cases h : reconciliationDue s with
  | true => rw [fetchRecordsThen_due s fields data h]; exact ⟨rfl, rfl⟩
  | false => rw [fetchRecordsThen_not_due s fields data h]; exact ⟨rfl, rfl⟩

theorem viewInv_of_same (s t : State) (h1 : t.data = s.data)
    (h2 : t.filteredData = s.filteredData) (h3 : t.searchTerm = s.searchTerm) (h : ViewInv s) :
    ViewInv t := by
  unfold ViewInv
  rw [h1, h2, h3]
  exact h

theorem step_viewInv (s : State) (e : Event) (h : ViewInv s) : ViewInv (step s e) := by
  by_cases hq : e.isQuiet = true
  · obtain ⟨h1, h2, -, -, -, h3, -⟩ := step_quiet s e hq
    exact viewInv_of_same s _ h1 h2 h3 h
  · cases e with
    | search value => exact Or.inr (handleSearch_view s value)
    | previous =>
      simp only [step, handlePrevious]
      split_ifs
      · exact viewInv_of_same s _ rfl rfl rfl h
      · exact h
    | next =>
      simp only [step, handleNext]
      split_ifs
      · exact viewInv_of_same s _ rfl rfl rfl h
      · exact h
    | pageChange p =>
      simp only [step, handlePageChange]
      split_ifs
      · exact viewInv_of_same s _ rfl rfl rfl h
      · exact h
    | objectChange v => exact Or.inl rfl
    | recordSelection r c =>
      obtain ⟨h1, -, -, h2, h3⟩ := handleRecordSelection_paging s r c
      exact viewInv_of_same s _ h2 h1 h3 h
    | selectAll c => exact viewInv_of_same s _ rfl rfl rfl h
    | saveResolved => exact viewInv_of_same s _ rfl rfl rfl h
    | back => exact Or.inl rfl
    | fetchResolved fields data => exact Or.inl (fetchRecordsResolved_view s fields data).1
    | _ => exact absurd rfl hq

theorem run_viewInv (s : State) (events : List Event) (h : ViewInv s) :
    ViewInv (run s events) := by
  induction events generalizing s with
  | nil => exact h
  | cons e es ih => exact ih (step s e) (step_viewInv s e h)


/-- C20 (amended): in every state reached from the initial state by the events
of the component, the filtered view is the whole of `data` or the free-text
filter of `data` by the stored search term; after `handleSearch` it is that
filter; after a successful fetch it is the whole of `data`, and the stored
search term is as before. -/
theorem filtered_view_invariant (broadcastGroupId : Option Str) (events : List Event) :
    ((run (initialState broadcastGroupId) events).filteredData =
        (run (initialState broadcastGroupId) events).data ∨
      (run (initialState broadcastGroupId) events).filteredData =
        freeTextFilter (run (initialState broadcastGroupId) events).data
          (run (initialState broadcastGroupId) events).searchTerm) ∧
    (∀ (s : State) (value : Str), (handleSearch s value).filteredData =
      freeTextFilter (handleSearch s value).data (handleSearch s value).searchTerm) ∧
    (∀ (s : State) (fields : FieldConfig) (data : List RawRecord),
      (fetchRecordsResolved s fields data).filteredData =
        (fetchRecordsResolved s fields data).data ∧
      (fetchRecordsResolved s fields data).searchTerm = s.searchTerm) :=
  ⟨run_viewInv _ events (Or.inl rfl), handleSearch_view, fetchRecordsResolved_view⟩

/-- Counterexample to C20: the records are loaded and searched for `ali`, which
keeps `r1` alone; the filters are applied, the fetch is issued and resolves
with the same records.  The stored term is still `ali`, yet the filtered view
holds all five rows. -/
theorem filtered_view_counterexample :
    (run (initialState none) sampleSearchThenFetch).searchTerm = "ali".toList ∧
    ((run (initialState none) sampleSearchThenFetch).filteredData.map fun r => r.Id) =
      ["r1".toList, "r2".toList, "r3".toList, "r4".toList, "r5".toList] ∧
    ((freeTextFilter (run (initialState none) sampleSearchThenFetch).data
        (run (initialState none) sampleSearchThenFetch).searchTerm).map fun r => r.Id) =
      ["r1".toList] ∧
    (run (initialState none) sampleSearchThenFetch).filteredData ≠
      freeTextFilter (run (initialState none) sampleSearchThenFetch).data
        (run (initialState none) sampleSearchThenFetch).searchTerm ∧
    ((run (initialState none) sampleSearchThenFetch).effects.filter fun e =>
        decide (e = Effect.getRecordsByListView "Lead".toList "lv1".toList
          "Name".toList "Phone".toList emptyFilterCriteria)).length = 2 := by
  decide

/-! ### Repeated search -/

theorem handleSearch_twice (s : State) (t1 t2 : Str) :
    handleSearch (handleSearch s t1) t2 = handleSearch s t2 := rfl

theorem trim_of_whiteSpace (t : Str) (h : ∀ c ∈ t, isJsWhiteSpace c = true) : trim t = [] := by
  unfold trim
  have : t.dropWhile isJsWhiteSpace = [] := by
    rw [List.dropWhile_eq_nil_iff]
    exact h
  rw [this]
  rfl

theorem mem_toLowerCase_whiteSpace (t : Str) (h : ∀ c ∈ t, isJsWhiteSpace c = true) :
    ∀ c ∈ toLowerCase t, isJsWhiteSpace c = true := by
  intro c hc
  unfold toLowerCase at hc
  obtain ⟨d, hd, rfl⟩ := List.mem_map.mp hc
  rw [isJsWhiteSpace_toLower]
  exact h d hd

/-- C23: a search after a search gives the state that the second search gives
alone, so the filtered view is that of the second term applied to the full
record set and a search repeated is the search made once; a search with an
empty term, or with a term of white space only, makes the filtered view the
full record set. -/
theorem search_not_cumulative (s : State) (t1 t2 : Str) :
    (handleSearch (handleSearch s t1) t2).filteredData = (handleSearch s t2).filteredData ∧
    handleSearch (handleSearch s t1) t2 = handleSearch s t2 ∧
    handleSearch (handleSearch s t1) t1 = handleSearch s t1 ∧
    (handleSearch s []).filteredData = s.data ∧
    ((∀ c ∈ t1, isJsWhiteSpace c = true) → (handleSearch s t1).filteredData = s.data) ∧
    ((∀ c ∈ t2, isJsWhiteSpace c = true) →
      (handleSearch (handleSearch s t1) t2).filteredData = s.data) := by
  have hws : ∀ (u : State) (t : Str), (∀ c ∈ t, isJsWhiteSpace c = true) →
      (handleSearch u t).filteredData = u.data := by
    intro u t h
    rw [handleSearch_filteredData_eq,
      trim_of_whiteSpace _ (mem_toLowerCase_whiteSpace t h)]
    simp
  refine ⟨rfl, rfl, rfl, ?_, hws s t1, ?_⟩
  · exact hws s [] (by intro c hc; cases hc)
  · intro h
    exact hws (handleSearch s t1) t2 h

/-- Witness of C23 on `samplePage`: after a search for `ali`, a search for white
space restores all five rows and a search for `2` finds `r2`, which the first
search had filtered out. -/
theorem search_not_cumulative_witness :
    (∀ c ∈ " \t ".toList, isJsWhiteSpace c = true) ∧
    (handleSearch (handleSearch samplePage "ali".toList) " \t ".toList).filteredData =
      samplePage.data ∧
    ((handleSearch (handleSearch samplePage "ali".toList) "2".toList).filteredData.map
      fun r => r.Id) = ["r2".toList] :=
  ⟨by decide,
   (search_not_cumulative samplePage "ali".toList " \t ".toList).2.2.2.2.2 (by decide),
   by decide⟩

/-! ### Back -/

/-- C24: with `community: 'Marina'` applied and `appliedFilterCount = 1`,
`handleBack` leaves both as they are.  For every state `handleBack` keeps the
applied criteria and the count, while it empties the selection set and the
record arrays, blanks the selected object and list view and sets `currentPage`
to 1.  The first definition of `cleardata` in the class, which the second
replaces, resets the criteria and the count. -/
theorem handleBack_keeps_filters :
    ((run (initialState none) sampleFilterTrace).filterCriteria.community = "Marina".toList ∧
      (run (initialState none) sampleFilterTrace).appliedFilterCount = 1 ∧
      (handleBack (run (initialState none) sampleFilterTrace)).filterCriteria.community =
        "Marina".toList ∧
      (handleBack (run (initialState none) sampleFilterTrace)).filterCriteria ≠
        emptyFilterCriteria ∧
      (handleBack (run (initialState none) sampleFilterTrace)).appliedFilterCount = 1) ∧
    (∀ s : State, (handleBack s).filterCriteria = s.filterCriteria ∧
      (handleBack s).appliedFilterCount = s.appliedFilterCount ∧
      (handleBack s).selectedRecords = [] ∧ (handleBack s).data = [] ∧
      (handleBack s).filteredData = [] ∧ (handleBack s).paginatedData = [] ∧
      (handleBack s).selectedObject = [] ∧ (handleBack s).selectedListView = [] ∧
      (handleBack s).currentPage = 1) ∧
    (∀ s : State, (cleardataFirst s).filterCriteria = emptyFilterCriteria ∧
      (cleardataFirst s).appliedFilterCount = 0) := by
  refine ⟨by decide, fun s => ⟨rfl, rfl, rfl, rfl, rfl, rfl, rfl, rfl, rfl⟩, fun s => ⟨rfl, rfl⟩⟩


/-! ### The mirror invariant -/

theorem jsSlice_sublist {α : Type} (xs : List α) (a b : Int) : (jsSlice xs a b).Sublist xs := by
  unfold jsSlice
  exact (List.take_sublist _ _).trans (List.drop_sublist _ _)

theorem rowIds_map_markSelected (set : JsSet) (rows : List Row) :
    rowIds (rows.map (markSelected set)) = rowIds rows := by
  unfold rowIds
  rw [List.map_map]
  rfl

theorem updateShownData_rowIds_nodup (s : State) (h : (rowIds s.filteredData).Nodup) :
    (rowIds (updateShownData s).paginatedData).Nodup := by
  show (rowIds (List.map _ (jsSlice s.filteredData _ _))).Nodup
  rw [rowIds_map_markSelected]
  exact List.Nodup.sublist ((jsSlice_sublist _ _ _).map _) h

theorem updateShownData_mirrorInv (s : State) (h1 : (rowIds s.data).Nodup)
    (h2 : (rowIds s.filteredData).Nodup) : MirrorInv (updateShownData s) :=
  ⟨updateShownData_mirror s, h1, h2, updateShownData_rowIds_nodup s h2⟩

theorem rowIds_fetchedRows (fields : FieldConfig) (data : List RawRecord) :
    rowIds (fetchedRows fields data) = data.map fun r => r.Id := by
  unfold rowIds fetchedRows
  rw [List.map_map]
  have : ((fun r : Row => r.Id) ∘ fun p : Nat × RawRecord => toRow fields p.1 p.2) =
      (fun r : RawRecord => r.Id) ∘ Prod.snd := rfl
  rw [this, ← List.map_map, List.enum_map_snd]

theorem rowIds_marked (p : Row → Prop) [DecidablePred p] (rows : List Row) :
    rowIds (rows.map fun (record : Row) =>
      if p record then { record with isSelected := true } else record) = rowIds rows := by
  unfold rowIds
  rw [List.map_map]
  apply List.map_congr_left
  intro r _
  simp only [Function.comp_apply]
  split_ifs <;> rfl

theorem fetchRecordsResolved_mirrorInv (s : State) (fields : FieldConfig)
    (data : List RawRecord) (h : (data.map fun r => r.Id).Nodup) :
    MirrorInv (fetchRecordsResolved s fields data) := by
  have hrows : (rowIds (fetchedRows fields data)).Nodup := by
    rw [rowIds_fetchedRows]; exact h
  unfold fetchRecordsResolved
  cases hd : reconciliationDue s with
  | true =>
    rw [fetchRecordsThen_due s fields data hd]
    have hm : (rowIds ((fetchedRows fields data).map fun (record : Row) =>
        if some record.phone ∈ s.groupMembers.map (fun member => member.Phone_Number__c)
        then { record with isSelected := true } else record)).Nodup := by
      rw [rowIds_marked (fun row : Row =>
        some row.phone ∈ s.groupMembers.map (fun member => member.Phone_Number__c))]
      exact hrows
    exact updateShownData_mirrorInv _ hm hm
  | false =>
    rw [fetchRecordsThen_not_due s fields data hd]
    exact updateShownData_mirrorInv _ hrows hrows

theorem freeFilter_rowIds_nodup (p : Row → Bool) (rows : List Row) (h : (rowIds rows).Nodup) :
    (rowIds (rows.filter p)).Nodup :=
  List.Nodup.sublist ((List.filter_sublist rows).map _) h

theorem updateFirst_rowIds (page : List Row) (r : Str) (b : Bool) :
    rowIds (updateFirst (fun row => decide (row.Id = r))
        (fun record => { record with isSelected := b }) page) = rowIds page := by
  have := congrArg (List.map fun q : Nat × Str × Str × Str => q.2.1)
    (updateFirst_map_fields page r b)
  simpa [rowIds, List.map_map, Function.comp_def] using this

theorem updateFirst_isSelected (page : List Row) (r : Str) (b : Bool)
    (hn : (rowIds page).Nodup) (row : Row)
    (hrow : row ∈ updateFirst (fun row => decide (row.Id = r))
        (fun record => { record with isSelected := b }) page)
    (hid : row.Id = r) : row.isSelected = b := by
  induction page with
  | nil => cases hrow
  | cons x xs ih =>
    unfold rowIds at hn
    rw [List.map_cons, List.nodup_cons] at hn
    unfold updateFirst at hrow
    by_cases hx : x.Id = r
    · simp only [hx, decide_True, if_true, List.mem_cons] at hrow
      rcases hrow with h | h
      · rw [h]
      · exfalso
        apply hn.1
        rw [hx, ← hid]
        exact List.mem_map_of_mem _ h
    · have hx' : decide (x.Id = r) = false := by simpa using hx
      rw [hx'] at hrow
      simp only [Bool.false_eq_true, if_false, List.mem_cons] at hrow
      rcases hrow with h | h
      · rw [h] at hid; exact absurd hid hx
      · exact ih hn.2 h

theorem handleRecordSelection_mirrorInv (s : State) (r : Str) (b : Bool) (h : MirrorInv s) :
    MirrorInv (handleRecordSelection s r b) := by
  obtain ⟨hm, h1, h2, h3⟩ := h
  cases hf : s.paginatedData.find? (fun row => decide (row.Id = r)) with
  | none =>
    have : handleRecordSelection s r b = s := by
      unfold handleRecordSelection
      rw [hf]
    rw [this]
    exact ⟨hm, h1, h2, h3⟩
  | some found =>
    have hst : handleRecordSelection s r b =
        { s with
          paginatedData := updateFirst (fun row => decide (row.Id = r))
            (fun record => { record with isSelected := b }) s.paginatedData,
          selectedRecords :=
            if b = true then s.selectedRecords.add r else s.selectedRecords.delete r } := by
      unfold handleRecordSelection
      rw [hf]
    rw [hst]
    refine ⟨?_, h1, h2, ?_⟩
    · intro row hrow
      change row ∈ updateFirst _ _ s.paginatedData at hrow
      show row.isSelected = JsSet.has (if b = true then _ else _) row.Id
      by_cases hid : row.Id = r
      · rw [updateFirst_isSelected s.paginatedData r b h3 row hrow hid, hid]
        cases b
        · simp [JsSet.has, mem_delete]
        · simp [JsSet.has, mem_add]
      · have hold := (updateFirst_other_rows s.paginatedData r b row hid).mp hrow
        rw [hm row hold]
        cases b
        · simp [JsSet.has, mem_delete, hid]
        · simp [JsSet.has, mem_add, hid]
    · show (rowIds (updateFirst _ _ s.paginatedData)).Nodup
      rw [updateFirst_rowIds]
      exact h3

theorem handleSelectAll_mirrorInv (s : State) (b : Bool) (h : MirrorInv s) :
    MirrorInv (handleSelectAll s b) := by
  obtain ⟨-, h1, h2, h3⟩ := h
  refine ⟨?_, h1, h2, ?_⟩
  · intro row hrow
    change row ∈ List.map _ s.paginatedData at hrow
    obtain ⟨row', hmem, rfl⟩ := List.mem_map.mp hrow
    show b = JsSet.has (handleSelectAll s b).selectedRecords row'.Id
    cases b
    · symm
      rw [← Bool.not_eq_true, has_iff, handleSelectAll_mem]
      rintro (⟨h, -⟩ | ⟨-, -, h⟩)
      · cases h
      · exact h row' hmem rfl
    · symm
      rw [has_iff, handleSelectAll_mem]
      exact Or.inl ⟨rfl, Or.inr ⟨row', hmem, rfl⟩⟩
  · show (rowIds (List.map _ s.paginatedData)).Nodup
    unfold rowIds at h3 ⊢
    rw [List.map_map]
    exact h3


theorem mirrorInv_of_same (s t : State) (h : SameRecords s t) (hi : MirrorInv s) :
    MirrorInv t := by
  obtain ⟨h1, h2, h3, -, -, -, h7⟩ := h
  unfold MirrorInv Mirror
  rw [h1, h2, h3, h7]
  exact hi

theorem mirrorInv_empty (t : State) (h1 : t.data = []) (h2 : t.filteredData = [])
    (h3 : t.paginatedData = []) : MirrorInv t := by
  unfold MirrorInv Mirror
  rw [h1, h2, h3]
  exact ⟨fun row hrow => (by cases hrow), List.nodup_nil, List.nodup_nil, List.nodup_nil⟩

theorem step_mirrorInv (s : State) (e : Event) (hd : e.hasDistinctIds = true)
    (h : MirrorInv s) : MirrorInv (step s e) := by
  by_cases hq : e.isQuiet = true
  · exact mirrorInv_of_same s _ (step_quiet s e hq) h
  · cases e with
    | search value =>
      exact updateShownData_mirrorInv _ h.2.1 (freeFilter_rowIds_nodup _ _ h.2.1)
    | previous =>
      simp only [step, handlePrevious]
      split_ifs
      · exact updateShownData_mirrorInv _ h.2.1 h.2.2.1
      · exact h
    | next =>
      simp only [step, handleNext]
      split_ifs
      · exact updateShownData_mirrorInv _ h.2.1 h.2.2.1
      · exact h
    | pageChange p =>
      simp only [step, handlePageChange]
      split_ifs
      · exact updateShownData_mirrorInv _ h.2.1 h.2.2.1
      · exact h
    | objectChange v => exact mirrorInv_empty _ rfl rfl rfl
    | recordSelection r c => exact handleRecordSelection_mirrorInv s r c h
    | selectAll c => exact handleSelectAll_mirrorInv s c h
    | saveResolved =>
      have := updateShownData_mirrorInv
        { closePopUp (showToast s "Success".toList
            "Broadcast group created successfully".toList "success".toList) with
          selectedRecords := [] } h.2.1 h.2.2.1
      exact this
    | back => exact mirrorInv_empty _ rfl rfl rfl
    | fetchResolved fields data =>
      exact fetchRecordsResolved_mirrorInv s fields data (by simpa [Event.hasDistinctIds] using hd)
    | _ => exact absurd rfl hq

theorem run_mirrorInv (s : State) (events : List Event)
    (hd : ∀ e ∈ events, e.hasDistinctIds = true) (h : MirrorInv s) :
    MirrorInv (run s events) := by
  induction events generalizing s with
  | nil => exact h
  | cons e es ih =>
    exact ih (step s e) (fun e' he' => hd e' (List.mem_cons_of_mem _ he'))
      (step_mirrorInv s e (hd e (List.mem_cons_self _ _)) h)

/-- C21: when every fetch resolves with records whose Ids are pairwise
distinct, in every state reached from the initial state by the events of the
component every row of the visible page has `isSelected` equal to the
membership of its Id in the selection set. -/
theorem mirror_invariant (broadcastGroupId : Option Str) (events : List Event)
    (hd : ∀ e ∈ events, e.hasDistinctIds = true) :
    ∀ row ∈ (run (initialState broadcastGroupId) events).paginatedData,
      row.isSelected =
        (run (initialState broadcastGroupId) events).selectedRecords.has row.Id :=
  (run_mirrorInv _ events hd (mirrorInv_empty _ rfl rfl rfl)).1

/-- Witness of C21: the records are loaded, `r2` is selected, the user searches
for `a`, selects all three rows found, deselects `r1` and presses next; the
page shows `r1` unselected and `r3`, `r4` selected, as the set has them. -/
theorem mirror_invariant_witness :
    (∀ e ∈ sampleLoadTrace ++ [Event.recordSelection "r2".toList true, Event.search "a".toList,
        Event.selectAll true, Event.recordSelection "r1".toList false, Event.next],
      e.hasDistinctIds = true) ∧
    ((run (initialState none)
      (sampleLoadTrace ++ [Event.recordSelection "r2".toList true, Event.search "a".toList,
        Event.selectAll true, Event.recordSelection "r1".toList false,
        Event.next])).paginatedData.map fun row => (row.Id, row.isSelected)) =
      [("r1".toList, false), ("r3".toList, true), ("r4".toList, true)] ∧
    ∀ row ∈ (run (initialState none)
      (sampleLoadTrace ++ [Event.recordSelection "r2".toList true, Event.search "a".toList,
        Event.selectAll true, Event.recordSelection "r1".toList false,
        Event.next])).paginatedData,
      row.isSelected =
        (run (initialState none)
          (sampleLoadTrace ++ [Event.recordSelection "r2".toList true, Event.search "a".toList,
            Event.selectAll true, Event.recordSelection "r1".toList false,
            Event.next])).selectedRecords.has row.Id :=
  ⟨by decide, by decide, mirror_invariant none _ (by decide)⟩


/-! ### The page index is well formed -/

theorem forRange_one (a b : Int) (h : b = a) : forRange a b = [a] := by
  subst h
  unfold forRange
  have : (b + 1 - b).toNat = 1 := by omega
  rw [this]
  simp [List.range_succ]

theorem forRange_two (a b : Int) (h : b = a + 1) : forRange a b = [a, a + 1] := by
  subst h
  unfold forRange
  have : (a + 1 + 1 - a).toNat = 2 := by omega
  rw [this]
  simp [List.range_succ]

theorem forRange_three (a b : Int) (h : b = a + 2) : forRange a b = [a, a + 1, a + 2] := by
  subst h
  unfold forRange
  have : (a + 2 + 1 - a).toNat = 3 := by omega
  rw [this]
  simp [List.range_succ]

theorem numbersOf_pages (l : List Int) (c : Int) :
    numbersOf (l.map fun i => IndexItem.page i (decide (i = c))) = l := by
  unfold numbersOf
  rw [List.filterMap_map]
  induction l with
  | nil => rfl
  | cons x xs ih =>
    rw [List.filterMap_cons, ih]
    rfl

theorem activeOf_pages (l : List Int) (c : Int) :
    activeOf (l.map fun i => IndexItem.page i (decide (i = c))) =
      l.filter fun i => decide (i = c) := by
  unfold activeOf
  induction l with
  | nil => rfl
  | cons x xs ih =>
    rw [List.map_cons, List.filterMap_cons, List.filter_cons, ih]
    by_cases h : x = c
    · simp [h, IndexItem.activeNumber?]
    · simp [h, IndexItem.activeNumber?]

theorem filter_eq_of_pairwise (l : List Int) (c : Int) (h : l.Pairwise (· < ·)) :
    (l.filter fun i => decide (i = c)) = if c ∈ l then [c] else [] := by
  induction l with
  | nil => rfl
  | cons x xs ih =>
    rw [List.pairwise_cons] at h
    rw [List.filter_cons, ih h.2]
    by_cases hx : x = c
    · subst hx
      have : x ∉ xs := fun hm => absurd (h.1 x hm) (lt_irrefl x)
      simp [this]
    · have hx' : ¬ c = x := fun h' => hx h'.symm
      simp [hx, hx']

theorem numbersOf_append (l₁ l₂ : List IndexItem) :
    numbersOf (l₁ ++ l₂) = numbersOf l₁ ++ numbersOf l₂ := by
  unfold numbersOf
  exact List.filterMap_append _ _ _

theorem activeOf_append (l₁ l₂ : List IndexItem) :
    activeOf (l₁ ++ l₂) = activeOf l₁ ++ activeOf l₂ := by
  unfold activeOf
  exact List.filterMap_append _ _ _


theorem numbersOf_ellipsis (c : Prop) [Decidable c] :
    numbersOf (if c then [IndexItem.ellipsis] else []) = [] := by
  split_ifs <;> rfl

theorem activeOf_ellipsis (c : Prop) [Decidable c] :
    activeOf (if c then [IndexItem.ellipsis] else []) = [] := by
  split_ifs <;> rfl

theorem pageIndexSpec_large (total current : Int) (h : 5 < total) :
    pageIndexSpec total current 5 =
      [IndexItem.page 1 (decide (1 = current))]
        ++ (if current > 3 then [IndexItem.ellipsis] else [])
        ++ ((forRange (max 2 (current - 1)) (min (current + 1) (total - 1))).map
              fun i => IndexItem.page i (decide (i = current)))
        ++ (if current < total - 2 then [IndexItem.ellipsis] else [])
        ++ [IndexItem.page total (decide (total = current))] := by
  unfold pageIndexSpec
  rw [if_neg (by omega)]

theorem numbersOf_large (total current : Int) (h : 5 < total) :
    numbersOf (pageIndexSpec total current 5) =
      [1] ++ forRange (max 2 (current - 1)) (min (current + 1) (total - 1)) ++ [total] := by
  rw [pageIndexSpec_large total current h]
  simp only [numbersOf_append, numbersOf_ellipsis, numbersOf_pages, List.append_nil]
  rfl

theorem activeOf_large (total current : Int) (h : 5 < total) (h1 : 1 ≤ current)
    (h2 : current ≤ total) : activeOf (pageIndexSpec total current 5) = [current] := by
  rw [pageIndexSpec_large total current h]
  simp only [activeOf_append, activeOf_ellipsis, activeOf_pages, List.append_nil]
  rw [filter_eq_of_pairwise _ _ (forRange_pairwise _ _)]
  simp only [mem_forRange]
  by_cases hc1 : current = 1
  · subst hc1
    have : ¬ (max 2 ((1 : Int) - 1) ≤ 1 ∧ (1 : Int) ≤ min (1 + 1) (total - 1)) := by omega
    have ht : ¬ total = 1 := by omega
    simp [activeOf, IndexItem.activeNumber?, this, ht]
  · by_cases hc2 : current = total
    · subst hc2
      have : ¬ (max 2 (current - 1) ≤ current ∧ current ≤ min (current + 1) (current - 1)) := by
        omega
      have ht : ¬ 1 = current := by omega
      simp [activeOf, IndexItem.activeNumber?, this, ht]
    · have : max 2 (current - 1) ≤ current ∧ current ≤ min (current + 1) (total - 1) := by
        omega
      have ht1 : ¬ 1 = current := fun h' => hc1 h'.symm
      have ht2 : ¬ total = current := fun h' => hc2 h'.symm
      simp [activeOf, IndexItem.activeNumber?, this, ht1, ht2]

theorem pairwise_large (total current : Int) (h : 5 < total) :
    (numbersOf (pageIndexSpec total current 5)).Pairwise (· < ·) := by
  rw [numbersOf_large total current h]
  refine List.pairwise_append.mpr ⟨List.pairwise_append.mpr
    ⟨List.pairwise_singleton _ _, forRange_pairwise _ _, ?_⟩, List.pairwise_singleton _ _, ?_⟩
  · intro a ha b hb
    rw [List.mem_singleton] at ha
    rw [mem_forRange] at hb
    omega
  · intro a ha b hb
    rw [List.mem_singleton] at hb
    rw [List.mem_append, List.mem_singleton, mem_forRange] at ha
    rcases ha with ha | ha <;> omega

theorem gaps_large (total current : Int) (h : 5 < total) (h1 : 1 ≤ current)
    (h2 : current ≤ total) : ellipsesMarkGaps (pageIndexSpec total current 5) = true := by
  rw [pageIndexSpec_large total current h]
  have hlen : min (current + 1) (total - 1) = max 2 (current - 1) ∨
      min (current + 1) (total - 1) = max 2 (current - 1) + 1 ∨
      min (current + 1) (total - 1) = max 2 (current - 1) + 2 := by omega
  rcases hlen with hl | hl | hl
  · rw [forRange_one _ _ hl]
    split_ifs <;>
      simp only [List.map_cons, List.map_nil, List.cons_append, List.nil_append,
        List.append_nil, ellipsesMarkGaps, Bool.and_eq_true, decide_eq_true_eq,
        Bool.and_true] <;> omega
  · rw [forRange_two _ _ hl]
    split_ifs <;>
      simp only [List.map_cons, List.map_nil, List.cons_append, List.nil_append,
        List.append_nil, ellipsesMarkGaps, Bool.and_eq_true, decide_eq_true_eq,
        Bool.and_true] <;> omega
  · rw [forRange_three _ _ hl]
    split_ifs <;>
      simp only [List.map_cons, List.map_nil, List.cons_append, List.nil_append,
        List.append_nil, ellipsesMarkGaps, Bool.and_eq_true, decide_eq_true_eq,
        Bool.and_true] <;> omega

theorem wellFormed_small (total current : Int) (h : total ≤ 5) (h1 : 1 ≤ current)
    (h2 : current ≤ total) :
    (numbersOf (pageIndexSpec total current 5)).Pairwise (· < ·) ∧
    (numbersOf (pageIndexSpec total current 5)).head? = some 1 ∧
    (numbersOf (pageIndexSpec total current 5)).getLast? = some total ∧
    activeOf (pageIndexSpec total current 5) = [current] ∧
    ellipsesMarkGaps (pageIndexSpec total current 5) = true := by
  have ht : 1 ≤ total := le_trans h1 h2
  interval_cases total <;> interval_cases current <;> decide


theorem wellFormed_large (total current : Int) (h : 5 < total) (h1 : 1 ≤ current)
    (h2 : current ≤ total) :
    (numbersOf (pageIndexSpec total current 5)).Pairwise (· < ·) ∧
    (numbersOf (pageIndexSpec total current 5)).head? = some 1 ∧
    (numbersOf (pageIndexSpec total current 5)).getLast? = some total ∧
    activeOf (pageIndexSpec total current 5) = [current] ∧
    ellipsesMarkGaps (pageIndexSpec total current 5) = true := by
  refine ⟨pairwise_large total current h, ?_, ?_, activeOf_large total current h h1 h2,
    gaps_large total current h h1 h2⟩
  · rw [numbersOf_large total current h]
    rfl
  · rw [numbersOf_large total current h, List.getLast?_append]
    rfl

/-- C22: for a window of 5, a current page of at least 1 and at most the total,
the numbers of the numbered entries of `pageNumbers` are strictly increasing,
the first is 1 and the last is the total; the entries marked active are
exactly one, numbered with the current page; and the list starts and ends with
a numbered entry, with an ellipsis between two numbered entries exactly when
their numbers differ by more than 1. -/
theorem pageNumbers_well_formed (total current : Int) (h1 : 1 ≤ current)
    (h2 : current ≤ total) :
    (numbersOf ((pageNumbersOf total current 5).map PageEntry.view)).Pairwise (· < ·) ∧
    (numbersOf ((pageNumbersOf total current 5).map PageEntry.view)).head? = some 1 ∧
    (numbersOf ((pageNumbersOf total current 5).map PageEntry.view)).getLast? = some total ∧
    activeOf ((pageNumbersOf total current 5).map PageEntry.view) = [current] ∧
    ellipsesMarkGaps ((pageNumbersOf total current 5).map PageEntry.view) = true ∧
    (∀ s : State, s.visiblePages = 5 → s.currentPage = current → totalPages s = total →
      pageNumbers s = pageNumbersOf total current 5) := by
  rw [pageNumbersOf_view]
  have hs : ∀ s : State, s.visiblePages = 5 → s.currentPage = current → totalPages s = total →
      pageNumbers s = pageNumbersOf total current 5 := by
    intro s hv hc ht
    unfold pageNumbers
    rw [hv, hc, ht]
  by_cases h : total ≤ 5
  · obtain ⟨a, b, c, d, e⟩ := wellFormed_small total current h h1 h2
    exact ⟨a, b, c, d, e, hs⟩
  · obtain ⟨a, b, c, d, e⟩ := wellFormed_large total current (by omega) h1 h2
    exact ⟨a, b, c, d, e, hs⟩

/-- Witness of C22 on `sampleState12`: page 6 of 12 gives the numbers
1, 5, 6, 7, 12 with 6 alone active and an ellipsis in each gap. -/
theorem pageNumbers_well_formed_witness :
    ((1 : Int) ≤ 6 ∧ (6 : Int) ≤ 12) ∧
    pageNumbers sampleState12 = pageNumbersOf 12 6 5 ∧
    numbersOf ((pageNumbers sampleState12).map PageEntry.view) = [1, 5, 6, 7, 12] ∧
    activeOf ((pageNumbersOf 12 6 5).map PageEntry.view) = [6] ∧
    ellipsesMarkGaps ((pageNumbersOf 12 6 5).map PageEntry.view) = true :=
  ⟨⟨by decide, by decide⟩,
   (pageNumbers_well_formed 12 6 (by decide) (by decide)).2.2.2.2.2 sampleState12
     (by decide) (by decide) (by decide),
   by decide,
   (pageNumbers_well_formed 12 6 (by decide) (by decide)).2.2.2.1,
   (pageNumbers_well_formed 12 6 (by decide) (by decide)).2.2.2.2.1⟩


end BroadcastMessageComp
